import Mathlib

/-!
# Verification of the student-data schema-unification and cleaning pipeline

Shallow embedding of `src/processing/unify_schema.py` (`unify_columns`) and
`src/processing/clean_students.py` (`iso8601_duration_to_seconds`,
`coerce_numeric_series`, `cap_outliers_iqr`, `clean_dataframe`).

Modelling conventions:
* pandas/NumPy floating-point numbers are modelled as `ℚ`; a missing value
  (`NaN` / `NA` / `None`) is `Option.none`.  `±inf` arises only transiently in
  the feature step and is modelled by the dedicated `PyFloat` type.
* A raw dataframe (arbitrary columns, as consumed by `unify_columns`) is a
  list of named columns of `PyVal` cells.  The cleaner's input — the Unified
  Table — is modelled as a list of typed records (`CRow`) over the canonical
  column set that `unify_columns` guarantees, so the cleaner's
  column-existence tests are resolved against that fixed schema.
* Python `str` manipulation is implemented over `List Char` so that concrete
  evaluations reduce in the kernel.
-/

namespace StudentPipeline

/-! ## Python string primitives -/

/-- Characters considered whitespace by Python's `str.strip()` (ASCII part;
Unicode whitespace beyond ASCII is not modelled). -/
def isPySpace (c : Char) : Bool :=
  c = ' ' ∨ c = '\t' ∨ c = '\n' ∨ c = '\r' ∨ c = '\x0b' ∨ c = '\x0c'

/-- `str.strip()` on the underlying character list. -/
def stripChars (cs : List Char) : List Char :=
  ((cs.dropWhile isPySpace).reverse.dropWhile isPySpace).reverse

/-- Python `s.strip()`. -/
def pyStrip (s : String) : String := ⟨stripChars s.data⟩

/-- Python `s.upper()` (ASCII case fold; the pipeline only upper-cases
duration strings whose significant characters are ASCII). -/
def pyUpper (s : String) : String := ⟨s.data.map Char.toUpper⟩

/-- Python `s.lower()` (ASCII case fold). -/
def pyLower (s : String) : String := ⟨s.data.map Char.toLower⟩

/-- Split a character list at every occurrence of the separator `sep`,
like Python `s.split(sep)` for a one-character separator: the result is
never empty and separators at the ends produce empty fields. -/
def splitOnCharAux (sep : Char) : List Char → List Char → List (List Char)
  | [], acc => [acc.reverse]
  | c :: cs, acc =>
    if c = sep then acc.reverse :: splitOnCharAux sep cs []
    else splitOnCharAux sep cs (c :: acc)

/-- Python `s.split(sep)` for a single-character separator. -/
def pySplit (sep : Char) (s : String) : List String :=
  (splitOnCharAux sep s.data []).map fun cs => ⟨cs⟩

/-- The ten decimal digit characters (the possible members of `natDigits`). -/
def decDigits : List Char := ['0', '1', '2', '3', '4', '5', '6', '7', '8', '9']

/-- Numeric value of a list of decimal digit characters (most significant
first), as read by Python `int`. -/
def digitsVal (cs : List Char) : Nat :=
  cs.foldl (fun a c => 10 * a + (c.toNat - 48)) 0

/-- Model of Python `int(s)` for decimal strings: optional surrounding
whitespace, an optional sign, then a nonempty run of digits.  (Underscore
digit separators accepted by Python are not modelled; no claim uses them.)
Returns `none` when `int` would raise `ValueError`. -/
def pyInt? (s : String) : Option Int :=
  let t := stripChars s.data
  match t with
  | '+' :: ds => if ds ≠ [] ∧ ds.all Char.isDigit then some (digitsVal ds) else none
  | '-' :: ds => if ds ≠ [] ∧ ds.all Char.isDigit then some (-(digitsVal ds : Int)) else none
  | ds => if ds ≠ [] ∧ ds.all Char.isDigit then some (digitsVal ds) else none

/-- `[int(x) for x in parts]`: all-or-nothing integer parsing of a list of
strings; `none` models the `ValueError` escaping the list comprehension. -/
def pyIntList (parts : List String) : Option (List Int) :=
  parts.mapM pyInt?

/-! ## `iso8601_duration_to_seconds` (clean_students.py lines 31–58) -/

/-- One optional group `(?:(\d+)TAG)?` of the ISO-8601 duration regex: a
nonempty greedy digit run that must be immediately followed by the tag
letter.  Returns the group's value and the remaining characters, or `none`
when the group does not match at this position (the regex then skips it). -/
def numGroup (tag : Char) (cs : List Char) : Option (Nat × List Char) :=
  match cs.span Char.isDigit with
  | ([], _) => none
  | (ds, t :: rest) => if t = tag then some (digitsVal ds, rest) else none
  | (_, []) => none

/-- Match of `^P(?:T(?:(\d+)H)?(?:(\d+)M)?(?:(\d+)S)?)$` against an
upper-cased string, returning `(hours, minutes, seconds)` with absent groups
read as 0 (`int(m.group(...) or 0)`).  Greedy matching of this anchored
pattern is deterministic: a digit run followed by the group's tag letter is
consumed, otherwise the optional group is skipped. -/
def isoMatch (s : String) : Option (Nat × Nat × Nat) :=
  match s.data with
  | 'P' :: 'T' :: cs0 =>
    let (h, cs1) := match numGroup 'H' cs0 with
      | some (v, r) => (v, r)
      | none => (0, cs0)
    let (m, cs2) := match numGroup 'M' cs1 with
      | some (v, r) => (v, r)
      | none => (0, cs1)
    let (sec, cs3) := match numGroup 'S' cs2 with
      | some (v, r) => (v, r)
      | none => (0, cs2)
    if cs3 = [] then some (h, m, sec) else none
  | _ => none

/-- Result of calling a Python function that may raise: `ok v` is a normal
return of `v`, `exn` an exception escaping the call. -/
inductive PyResult (α : Type) where
  | ok (v : α)
  | exn
deriving DecidableEq, Repr

/-- `iso8601_duration_to_seconds` (lines 37–58).  `ok none` models
`return None`; `exn` models an uncaught exception escaping the function.
When the regex does not match and the colon-split parts all parse as ints
but their count is not 1, 2 or 3, control falls out of the `try` block and
reaches `m.group(...)` with `m = None`, raising `AttributeError` — this is
the `.exn` branch. -/
def iso8601_duration_to_seconds (s0 : String) : PyResult (Option Int) :=
  let s := pyUpper (pyStrip s0)
  match isoMatch s with
  | some (h, m, sec) => .ok (some ((h : Int) * 3600 + m * 60 + sec))
  | none =>
    match pyIntList (pySplit ':' s) with
    | none => .ok none
    | some parts =>
      match parts with
      | [a, b, c] => .ok (some (a * 3600 + b * 60 + c))
      | [a, b] => .ok (some (a * 60 + b))
      | [a] => .ok (some a)
      | _ => .exn

/-! ## Numeric column utilities (pandas semantics over `ℚ`) -/

/-- A numeric pandas column: each cell is a rational or missing (`NaN`). -/
abbrev QCol := List (Option ℚ)

/-- The non-null values of a column (`s.dropna()`). -/
def nonNull (s : QCol) : List ℚ := s.filterMap id

/-- The non-null values of a column, sorted ascending, as used by pandas
`quantile` and `median`. -/
def sortedNonNull (s : QCol) : List ℚ :=
  (nonNull s).insertionSort (· ≤ ·)

/-- pandas `Series.quantile(q)` with the default linear interpolation, on an
already-sorted list `v` of the non-null values: with `h = q*(n-1)` and
`i = ⌊h⌋`, the result is `v[i] + (h-i) * (v[i+1] - v[i])` (and `v[n-1]` when
`i+1` falls outside the list, i.e. `q = 1`). -/
def quantileSorted (v : List ℚ) (q : ℚ) : ℚ :=
  let n := v.length
  let h := q * ((n : ℚ) - 1)
  let i := (Int.floor h).toNat
  if i + 1 < n then v.getD i 0 + (h - (i : ℚ)) * (v.getD (i + 1) 0 - v.getD i 0)
  else v.getD (n - 1) 0

/-- The linear-interpolation kernel of `quantileSorted`, as a function of
the fractional index `x = q * (n-1)`. -/
def interpAt (v : List ℚ) (x : ℚ) : ℚ :=
  let i := (Int.floor x).toNat
  if i + 1 < v.length then v.getD i 0 + (x - (i : ℚ)) * (v.getD (i + 1) 0 - v.getD i 0)
  else v.getD (v.length - 1) 0

/-- pandas `Series.quantile(q)` of a column (nulls skipped). -/
def colQuantile (s : QCol) (q : ℚ) : ℚ :=
  quantileSorted (sortedNonNull s) q

/-- pandas `Series.median(skipna=True)`: the middle sorted non-null value,
or the mean of the two middle ones; `NaN` (here `none`) when every value is
null. -/
def pandasMedian (s : QCol) : Option ℚ :=
  let v := sortedNonNull s
  let n := v.length
  if n = 0 then none
  else if n % 2 = 1 then some (v.getD (n / 2) 0)
  else some ((v.getD (n / 2 - 1) 0 + v.getD (n / 2) 0) / 2)

/-- pandas `Series.clip(lower, upper)` on one value: the lower bound is
applied first, then the upper bound. -/
def clipQ (lo hi x : ℚ) : ℚ := min (max x lo) hi

/-- `cap_outliers_iqr` (clean_students.py lines 70–76): if the column has no
non-null value it is returned unchanged, otherwise every non-null cell is
clipped into `[quantile lower_q, quantile upper_q]`; nulls stay null
(`Series.clip` propagates `NaN`). -/
def cap_outliers_iqr (s : QCol) (lower_q upper_q : ℚ) : QCol :=
  if nonNull s = [] then s
  else
    let low := colQuantile s lower_q
    let high := colQuantile s upper_q
    s.map (Option.map (clipQ low high))

/-! ## Decimal rendering of row indices (Python `str(i)` in f-strings) -/

/-- Reference decimal rendering of a natural number, most significant digit
first (specification version; `natReprAux` below is the fuel-driven
equivalent that the kernel can evaluate). -/
def natDigits (n : Nat) : List Char :=
  if _h : n < 10 then [Nat.digitChar n]
  else natDigits (n / 10) ++ [Nat.digitChar (n % 10)]
termination_by n
decreasing_by
  exact Nat.div_lt_self (by omega) (by omega)

/-- Fuel-driven decimal digit accumulation (structurally recursive so that
concrete strings evaluate in the kernel). -/
def natReprAux : Nat → Nat → List Char → List Char
  | 0, _, acc => acc
  | fuel + 1, n, acc =>
    if n < 10 then Nat.digitChar n :: acc
    else natReprAux fuel (n / 10) (Nat.digitChar (n % 10) :: acc)

/-- Python `str(i)` for a nonnegative integer `i` (decimal rendering). -/
def natRepr (n : Nat) : String := ⟨natReprAux (n + 1) n []⟩

/-- Python `str(i)` for an integer. -/
def intRepr (i : Int) : String :=
  if i < 0 then "-" ++ natRepr i.natAbs else natRepr i.natAbs

/-! ## Raw dataframes and `unify_columns` (unify_schema.py lines 79–202) -/

/-- A pandas cell as seen by the unifier: a string, a number (floats and
ints collapsed to `ℚ`), or missing (`NaN`/`pd.NA`/`None` collapsed). -/
inductive PyVal where
  | str (s : String)
  | num (q : ℚ)
  | null
deriving DecidableEq, Repr

/-- A raw dataframe: named columns of cells.  `nrows` is the length of the
index; well-formed frames (`DataFrame.WF`) have every column of that length
and no duplicated column names. -/
structure DataFrame where
  nrows : Nat
  cols : List (String × List PyVal)
deriving DecidableEq, Repr

/-- Well-formedness: columns all have `nrows` cells and names are unique. -/
def DataFrame.WF (df : DataFrame) : Prop :=
  (∀ c ∈ df.cols, c.2.length = df.nrows) ∧ (df.cols.map (·.1)).Nodup

/-- The column of the given name, if present (`df[name]`). -/
def DataFrame.getCol? (df : DataFrame) (name : String) : Option (List PyVal) :=
  (df.cols.find? (fun c => c.1 = name)).map (·.2)

/-- The column of the given name, defaulting to the empty column. -/
def DataFrame.getColD (df : DataFrame) (name : String) : List PyVal :=
  (df.getCol? name).getD []

/-- `df[name] = vals`: replace the column in place if it exists, otherwise
append it as the last column (pandas column-assignment semantics). -/
def DataFrame.setCol (df : DataFrame) (name : String) (vals : List PyVal) : DataFrame :=
  if (df.getCol? name).isSome then
    ⟨df.nrows, df.cols.map fun c => if c.1 = name then (name, vals) else c⟩
  else ⟨df.nrows, df.cols ++ [(name, vals)]⟩

/-- Line 98: `df.columns = [c.strip() for c in df.columns]`. -/
def stripColNames (df : DataFrame) : DataFrame :=
  ⟨df.nrows, df.cols.map fun c => (pyStrip c.1, c.2)⟩

/-- Line 99: `cols_low = {c.lower(): c for c in df.columns}` — a lookup from
lower-cased name to original name; on duplicates the later column wins, so
we search the column list from the right. -/
def colsLowLookup (df : DataFrame) (key : String) : Option String :=
  (df.cols.map (·.1)).reverse.find? fun n => pyLower n = key

/-- Lines 101–105: `find_column(variants)` — the first variant whose
lower-cased form names a column. -/
def find_column (df : DataFrame) (variants : List String) : Option String :=
  variants.findSome? fun v => colsLowLookup df (pyLower v)

/-- Lines 107–147: the alias table, in source order; each entry is the
variant list passed to `find_column` and the canonical name it maps to. -/
def aliasTable : List (List String × String) :=
  [ (["student_id", "user_id", "id", "student"], "student_id"),
    (["gender", "sex", "student_gender"], "student_gender"),
    (["age", "student_age", "years"], "student_age"),
    (["course_id", "course", "course_name", "title"], "course_name"),
    (["watch_time", "watch_seconds", "watch_minutes", "watch"], "watch_time"),
    (["views", "view_count"], "views"),
    (["duration", "duration_sec", "duration_seconds"], "duration_sec"),
    (["engagement", "engagement_score", "engagement_rate"], "engagement"),
    (["timestamp", "time", "published_at", "date", "datetime"], "timestamp") ]

/-- The rename mapping `{source_column: canonical_name}` accumulated over
the alias table (the alias lists are pairwise disjoint, so the dict keys are
distinct and list order is faithful to dict semantics). -/
def buildMapping (df : DataFrame) : List (String × String) :=
  aliasTable.filterMap fun p => (find_column df p.1).map fun c => (c, p.2)

/-- Lines 150–151: `df.rename(columns=mapping)`. -/
def renameCols (m : List (String × String)) (df : DataFrame) : DataFrame :=
  ⟨df.nrows, df.cols.map fun c =>
    (((m.find? fun p => p.1 = c.1).map (·.2)).getD c.1, c.2)⟩

/-- Lines 154–166: the canonical columns created as all-null when absent. -/
def requiredCols : List String :=
  ["student_id", "student_gender", "student_age", "course_name",
   "watch_time", "duration_sec", "engagement", "timestamp"]

/-- Lines 164–166: `for c in required: if c not in df.columns: df[c] = pd.NA`. -/
def addMissingRequired (df : DataFrame) : DataFrame :=
  ⟨df.nrows,
   df.cols ++ (requiredCols.filter fun c => decide (c ∉ df.cols.map (·.1))).map
     fun c => (c, List.replicate df.nrows PyVal.null)⟩

/-- Model of the string grammar accepted by `pd.to_numeric`: an optional
sign, digits with at most one decimal point, at least one digit (scientific
notation and `inf`/`nan` literals are not modelled; no claim uses them). -/
def parseDecimal? (cs : List Char) : Option ℚ :=
  match cs.span Char.isDigit with
  | (ip, []) => if ip = [] then none else some (digitsVal ip : ℚ)
  | (ip, '.' :: fp) =>
    if fp.all Char.isDigit ∧ ¬(ip = [] ∧ fp = []) then
      some ((digitsVal ip : ℚ) + (digitsVal fp : ℚ) / ((10 : ℚ) ^ fp.length))
    else none
  | _ => none

/-- Numeric parse of a stripped string, with sign. -/
def pyFloat? (s : String) : Option ℚ :=
  match stripChars s.data with
  | '+' :: cs => parseDecimal? cs
  | '-' :: cs => (parseDecimal? cs).map Neg.neg
  | cs => parseDecimal? cs

/-- `pd.to_numeric(·, errors="coerce")` on one cell: numbers pass through,
unparsable strings and nulls become null. -/
def pdToNumeric (v : PyVal) : PyVal :=
  match v with
  | .num q => .num q
  | .null => .null
  | .str s => match pyFloat? s with
    | some q => .num q
    | none => .null

/-- Lines 170–175: coercion of the numeric canonical columns. -/
def numericCandidatesUnify : List String :=
  ["watch_time", "duration_sec", "engagement", "student_age", "views"]

/-- One iteration of the coercion loop:
`if numcol in df.columns: df[numcol] = pd.to_numeric(df[numcol], errors="coerce")`. -/
def coerceOne (d : DataFrame) (n : String) : DataFrame :=
  if (d.getCol? n).isSome then d.setCol n ((d.getColD n).map pdToNumeric) else d

def coerceNumericCols (df : DataFrame) : DataFrame :=
  numericCandidatesUnify.foldl coerceOne df

/-- Modelled from the code's `pd.to_datetime(·, errors="coerce")` on one
cell: datetimes are represented as rationals, numeric cells pass through as
already-converted time values, `"YYYY-MM-DD"` strings parse to the
order-preserving encoding `y*10000 + m*100 + d`, anything else coerces to
null.  (The full permissive pandas datetime grammar is not modelled; no
claim depends on which strings parse.) -/
def dateParse? (s : String) : Option ℚ :=
  match pySplit '-' (pyStrip s) with
  | [ys, ms, ds] =>
    if ys.data ≠ [] ∧ ys.data.all Char.isDigit ∧ ms.data ≠ [] ∧ ms.data.all Char.isDigit ∧
        ds.data ≠ [] ∧ ds.data.all Char.isDigit ∧
        1 ≤ digitsVal ms.data ∧ digitsVal ms.data ≤ 12 ∧
        1 ≤ digitsVal ds.data ∧ digitsVal ds.data ≤ 31 then
      some ((digitsVal ys.data : ℚ) * 10000 + (digitsVal ms.data : ℚ) * 100 + (digitsVal ds.data : ℚ))
    else none
  | _ => none

def pdToDatetimeCell (v : PyVal) : PyVal :=
  match v with
  | .num q => .num q
  | .null => .null
  | .str s => match dateParse? s with
    | some q => .num q
    | none => .null

/-- Lines 178–182: parse the timestamp column. -/
def datetimeCol (df : DataFrame) : DataFrame :=
  if (df.getCol? "timestamp").isSome then
    df.setCol "timestamp" ((df.getColD "timestamp").map pdToDatetimeCell)
  else df

/-- Lines 184–188: `df["source_file"] = df["_source_file"]` when that column
exists, else `df.get("source", pd.NA)` — the `source` column if present,
otherwise the scalar `pd.NA` broadcast to an all-null column. -/
def sourceFileCol (df : DataFrame) : DataFrame :=
  if (df.getCol? "_source_file").isSome then
    df.setCol "source_file" (df.getColD "_source_file")
  else if (df.getCol? "source").isSome then
    df.setCol "source_file" (df.getColD "source")
  else df.setCol "source_file" (List.replicate df.nrows PyVal.null)

/-- f-string rendering of a cell, as in `f"{row.get('source_file','unknown')}_..."`.
The unifier's missing values are `pd.NA`, which Python renders as `"<NA>"`
(a CSV-read `NaN` would render `"nan"`; no claim depends on the
distinction).  Numbers are rendered through `intRepr` — a model of Python's
float formatting, exercised by no claim. -/
def fstr (v : PyVal) : String :=
  match v with
  | .str s => s
  | .num q => intRepr q.num ++ (if q.den = 1 then "" else "?")
  | .null => "<NA>"

/-- Lines 190–194: synthesize `f"{row.get('source_file','unknown')}_{row.name}"`
per row.  The `source_file` column always exists here (just created), so
`row.get` returns its value; `row.name` is the positional index of a freshly
loaded batch. -/
def synthStudentIds (df : DataFrame) : DataFrame :=
  let sf := df.getColD "source_file"
  df.setCol "student_id"
    ((List.range df.nrows).map fun i =>
      PyVal.str (fstr (sf.getD i PyVal.null) ++ "_" ++ natRepr i))

/-- Lines 196–200: column selection/reordering.  `keep` is
`required + ["student_id", "source_file", "views"]` deduplicated preserving
order; the surviving original columns follow in their original order. -/
def keepOrder : List String :=
  ["student_id", "student_gender", "student_age", "course_name",
   "watch_time", "duration_sec", "engagement", "timestamp", "source_file", "views"]

def reorderKeep (df : DataFrame) : DataFrame :=
  let existing := keepOrder.filter fun c => decide (c ∈ df.cols.map (·.1))
  ⟨df.nrows,
   (existing.filterMap fun n => df.cols.find? fun c => c.1 = n) ++
     df.cols.filter fun c => decide (c.1 ∉ existing)⟩

/-- The unifier state just before the synthetic-id step (end of line 188). -/
def unifyBeforeId (df0 : DataFrame) : DataFrame :=
  let df1 := stripColNames df0
  sourceFileCol (datetimeCol (coerceNumericCols (addMissingRequired
    (renameCols (buildMapping df1) df1))))

/-- `unify_columns` (unify_schema.py lines 79–202). -/
def unify_columns (df0 : DataFrame) : DataFrame :=
  let df := unifyBeforeId df0
  let df' := if (df.getColD "student_id").all (· = PyVal.null) then synthStudentIds df else df
  reorderKeep df'

/-! ## The cleaner `clean_dataframe` (clean_students.py lines 82–223)

The cleaner consumes the Unified Table, whose column set `unify_columns`
fixes to the canonical columns (`keepOrder`) plus passthroughs.  We model
it as a list of typed records over exactly the canonical columns (with the
derived columns the cleaner itself creates).  Column-existence tests in the
source are resolved against this schema:

* `watch_time`, `duration_sec`, `engagement`, `views`, `student_age`,
  `timestamp`, `student_id`, `student_gender`, `course_name`,
  `source_file` are always present;
* the passthrough `_source_file` column is dropped by step 1 (its name
  contains `"_source_file"`) and is therefore not carried in the record;
* the passthrough `participation` column is carried: the synthetic
  source's fixed schema supplies it, `unify_columns` keeps passthrough
  columns, and concatenation spreads it over the whole Unified Table
  (null outside the synthetic rows) — so step 9 takes the participation
  branch of `is_engaged` (lines 186–187);
* `duration`, `hours_studied`, `assignments_completed` are absent from
  the canonical output reaching this model's scope, so step 5 (the
  duration-string fallback) is skipped.

Numeric cells are `Option ℚ` (the unifier already coerced them), string
cells `Option String`, and timestamps `Option ℚ` (already parsed datetimes;
`pd.to_datetime` on a datetime column is the identity). -/

/-- One row of the Unified/Clean Table over the canonical schema. -/
structure CRow where
  student_id : Option String
  student_gender : Option String
  student_age : Option ℚ
  course_name : Option String
  watch_time : Option ℚ
  duration_sec : Option ℚ
  engagement : Option ℚ
  timestamp : Option ℚ
  source_file : Option String
  views : Option ℚ
  participation : Option ℚ
  watch_time_sec : Option ℚ
  completion_rate : Option ℚ
  engagement_rate : Option ℚ
  is_engaged : Option ℚ
  hour : Option ℚ
  weekday : Option ℚ
deriving DecidableEq, Repr

/-- A Unified-Table row: the derived columns do not exist yet; they are
recorded as `none` (the cleaner overwrites all of them unconditionally
under this schema before any step reads them). -/
def CRow.unified (student_id student_gender : Option String) (student_age : Option ℚ)
    (course_name : Option String) (watch_time duration_sec engagement timestamp : Option ℚ)
    (source_file : Option String) (views participation : Option ℚ) : CRow :=
  ⟨student_id, student_gender, student_age, course_name, watch_time, duration_sec,
   engagement, timestamp, source_file, views, participation,
   none, none, none, none, none, none⟩

/-- Lines 98–110: the closed gender alias table. -/
def genderMap (s : String) : Option String :=
  if s = "f" ∨ s = "female" ∨ s = "woman" ∨ s = "femme" then some "female"
  else if s = "m" ∨ s = "male" ∨ s = "man" ∨ s = "homme" then some "male"
  else if s = "0" ∨ s = "1" ∨ s = "nan" then some "unknown"
  else none

/-- Lines 111–113: `astype(str).str.lower().str.strip().map(mapping).fillna("unknown")`
on a single cell (`astype(str)` renders a missing value as `"nan"`). -/
def normalizeGender (v : Option String) : String :=
  let raw := match v with
    | some s => s
    | none => "nan"
  (genderMap (pyStrip (pyLower raw))).getD "unknown"

/-- Step 3 (lines 96–115): gender normalization over the table. -/
def genderStep (rows : List CRow) : List CRow :=
  rows.map fun r => { r with student_gender := some (normalizeGender r.student_gender) }

/-- `coerce_numeric_series` (lines 61–67) on a canonical numeric column:
the dtype is already numeric, so the object-dtype string cleanup does not
run and `pd.to_numeric` is the identity.  Step 4 is therefore the identity
on this schema. -/
def coerce_numeric_series (s : QCol) : QCol := s

def numericCoerceStep (rows : List CRow) : List CRow := rows

/-- Step 6 (lines 147–158): watch-time unit resolution on the `watch_time`
column — if the median of the non-null values exists, is positive and is
below 100, every value is multiplied by 60, otherwise taken unchanged. -/
def watchTimeSecCol (col : QCol) : QCol :=
  match pandasMedian col with
  | some m => if 0 < m ∧ m < 100 then col.map (Option.map (· * 60)) else col
  | none => col

def watchTimeStep (rows : List CRow) : List CRow :=
  List.zipWith (fun r v => { r with watch_time_sec := v }) rows
    (watchTimeSecCol (rows.map (·.watch_time)))

/-- Step 7 (lines 161–166): the `timestamp` column exists and is already a
parsed datetime, so `pd.to_datetime(· , errors="coerce", utc=True)` is the
identity on it. -/
def timestampStep (rows : List CRow) : List CRow := rows

/-- Step 8 (lines 168–171): when `student_id` is entirely null, synthesize
`f"{row.get('source_file','unknown')}_{row.name}"`.  The `source_file`
column exists in the schema, so `row.get` returns its value — a missing
value renders as `"nan"` in the f-string (the CSV-read null is `np.nan`);
`row.name` is the positional index of the freshly loaded table. -/
def synthIdRow (i : Nat) (r : CRow) : CRow :=
  { r with student_id := some ((r.source_file.getD "nan") ++ "_" ++ natRepr i) }

def synthIdStep (rows : List CRow) : List CRow :=
  if rows.all (·.student_id.isNone) then
    List.zipWith synthIdRow (List.range rows.length) rows
  else rows

/-- A pandas float as produced by a vectorized division, before the
`replace([inf, -inf], nan)` cleanup. -/
inductive PyFloat where
  | val (q : ℚ)
  | nan
  | inf
  | ninf
deriving DecidableEq, Repr

/-- Vectorized division of two nullable cells: `x/0` gives `±inf` for
nonzero `x` and `NaN` for `0/0`; any null operand propagates `NaN`. -/
def pyDivF (a b : Option ℚ) : PyFloat :=
  match a, b with
  | some x, some y =>
    if y = 0 then (if x = 0 then .nan else if 0 < x then .inf else .ninf)
    else .val (x / y)
  | _, _ => .nan

/-- `.replace([np.inf, -np.inf], np.nan)` composed with the null model:
infinities and `NaN` both end as missing. -/
def replaceInfNan (f : PyFloat) : Option ℚ :=
  match f with
  | .val q => some q
  | _ => none

/-- `df["timestamp"].dt.hour` on the rational-epoch datetime model. -/
def hourOf (t : ℚ) : ℚ := ((Int.floor (t / 3600)) % 24 : ℤ)

/-- `df["timestamp"].dt.weekday` (Monday = 0; the epoch 1970-01-01 was a
Thursday, index 3) on the rational-epoch datetime model. -/
def weekdayOf (t : ℚ) : ℚ := ((Int.floor (t / 86400) + 3) % 7 : ℤ)

/-- Step 9 (lines 173–194): derived features.  `completion_rate` and
`engagement_rate` are null-safe divisions; `is_engaged` uses the
participation branch (lines 186–187,
`participation.fillna(0).apply(lambda x: 1 if x > 0 else 0)`) since the
`participation` column is present in this schema; `hour`/`weekday`
propagate null timestamps. -/
def featureRow (r : CRow) : CRow :=
  let cr := replaceInfNan (pyDivF r.watch_time_sec r.duration_sec)
  { r with
    completion_rate := cr
    engagement_rate := replaceInfNan (pyDivF r.engagement r.duration_sec)
    is_engaged := some (if 0 < r.participation.getD 0 then 1 else 0)
    hour := r.timestamp.map hourOf
    weekday := r.timestamp.map weekdayOf }

def featureStep (rows : List CRow) : List CRow := rows.map featureRow

/-- The `drop_duplicates` key of step 10: `(student_id, course_name,
timestamp)` — all three columns exist in the schema.  pandas compares `NaN`
keys equal to each other, which the `Option` equality reproduces. -/
def cleanKey (r : CRow) : Option String × Option String × Option ℚ :=
  (r.student_id, r.course_name, r.timestamp)

/-- `drop_duplicates(subset=key, keep="first")`: keep each row whose key has
not appeared before; equivalently, keep the head and recurse on the tail
purged of rows sharing the head's key. -/
def dedupBy {α β : Type} [DecidableEq β] (key : α → β) : List α → List α
  | [] => []
  | x :: xs => x :: dedupBy key (xs.filter fun y => decide (key y ≠ key x))
termination_by l => l.length
decreasing_by
  simp only [List.length_cons]
  have := List.length_filter_le (fun y => decide (key y ≠ key x)) xs
  omega

/-- Step 10 (lines 196–201). -/
def dedupStep (rows : List CRow) : List CRow := dedupBy cleanKey rows

/-- Apply `cap_outliers_iqr` to one numeric field of the table. -/
def capField (get : CRow → Option ℚ) (set : CRow → Option ℚ → CRow)
    (rows : List CRow) : List CRow :=
  List.zipWith set rows (cap_outliers_iqr (rows.map get) (1/100) (99/100))

/-- Step 11 (lines 203–206): outlier capping of `watch_time_sec`,
`duration_sec` and `views`, in that order. -/
def capStep (rows : List CRow) : List CRow :=
  capField (·.views) (fun r v => { r with views := v })
    (capField (·.duration_sec) (fun r v => { r with duration_sec := v })
      (capField (·.watch_time_sec) (fun r v => { r with watch_time_sec := v }) rows))

/-- Python `int(q)` on a float: truncation toward zero. -/
def pyIntOfRat (q : ℚ) : ℤ := if 0 ≤ q then Int.floor q else Int.ceil q

/-- Step 12 (lines 208–220): missing-value policy — ages filled with the
truncated column median when any age exists, gender nulls with
`"unknown"`, and `watch_time_sec`/`duration_sec`/`views`/`engagement`
nulls with 0. -/
def fillStep (rows : List CRow) : List CRow :=
  let ageFill : Option ℚ → Option ℚ :=
    match pandasMedian (rows.map (·.student_age)) with
    | some m => fun a => some (a.getD ((pyIntOfRat m : ℤ) : ℚ))
    | none => id
  rows.map fun r =>
    { r with
      student_age := ageFill r.student_age
      student_gender := some (r.student_gender.getD "unknown")
      watch_time_sec := some (r.watch_time_sec.getD 0)
      duration_sec := some (r.duration_sec.getD 0)
      views := some (r.views.getD 0)
      engagement := some (r.engagement.getD 0) }

/-- The cleaner state just before step 11's outlier capping (used to speak
about a column's "pre-capping distribution"). -/
def cleanBeforeCap (rows : List CRow) : List CRow :=
  dedupStep (featureStep (synthIdStep (timestampStep (watchTimeStep
    (numericCoerceStep (genderStep rows))))))

/-- `clean_dataframe` (clean_students.py lines 82–223) on the canonical
schema.  Steps 1–2 (metadata-column drop, column-name strip) are the
identity here: the only matching passthrough, `_source_file`, is exactly
what the drop removes, and the canonical names carry no surrounding
whitespace. -/
def clean_dataframe (rows : List CRow) : List CRow :=
  fillStep (capStep (cleanBeforeCap rows))

/-! ## Concrete instances used by counterexamples and witnesses -/

/-- A raw batch whose mapped `student_id` column is partially null and that
carries a `_source_file` tag. -/
def uBatchPartialId : DataFrame :=
  ⟨2, [("student_id", [.str "a", .null]), ("_source_file", [.str "f.csv", .str "f.csv"])]⟩

/-- A raw batch with no id-like column: ids must be synthesized. -/
def uBatchNoId : DataFrame :=
  ⟨2, [("_source_file", [.str "f.csv", .str "f.csv"]), ("Gender", [.str "F", .str "M"])]⟩

/-- A raw batch with neither a `_source_file` nor a `source` column. -/
def uBatchBare : DataFrame := ⟨1, [("id", [.str "x"])]⟩

/-- A three-row Unified Table: distinct ids, `duration_sec` null/100/200,
everything else null or constant. -/
def tblU : List CRow :=
  [CRow.unified (some "a") (some "f") none none none none none none (some "s") none none,
   CRow.unified (some "b") (some "f") none none none (some 100) none none (some "s") none none,
   CRow.unified (some "c") (some "f") none none none (some 200) none none (some "s") none none]

/-- `tblU` after gender normalization (steps 3–8 then change nothing else on
this data). -/
def tblGender : List CRow :=
  [⟨some "a", some "female", none, none, none, none, none, none, some "s", none, none, none, none, none, none, none, none⟩,
   ⟨some "b", some "female", none, none, none, some 100, none, none, some "s", none, none, none, none, none, none, none, none⟩,
   ⟨some "c", some "female", none, none, none, some 200, none, none, some "s", none, none, none, none, none, none, none, none⟩]

/-- `tblU` just before outlier capping (`cleanBeforeCap tblU`). -/
def tblFeat : List CRow :=
  [⟨some "a", some "female", none, none, none, none, none, none, some "s", none, none, none, none, none, some 0, none, none⟩,
   ⟨some "b", some "female", none, none, none, some 100, none, none, some "s", none, none, none, none, none, some 0, none, none⟩,
   ⟨some "c", some "female", none, none, none, some 200, none, none, some "s", none, none, none, none, none, some 0, none, none⟩]

/-- `tblU` after outlier capping: `duration_sec` clipped into `[101, 199]`. -/
def tblCapped : List CRow :=
  [⟨some "a", some "female", none, none, none, none, none, none, some "s", none, none, none, none, none, some 0, none, none⟩,
   ⟨some "b", some "female", none, none, none, some 101, none, none, some "s", none, none, none, none, none, some 0, none, none⟩,
   ⟨some "c", some "female", none, none, none, some 199, none, none, some "s", none, none, none, none, none, some 0, none, none⟩]

/-- `clean_dataframe tblU`: the Clean Table of the first pass (nulls of the
capped columns filled with 0 — note the 0 outside `[101, 199]`). -/
def tblClean : List CRow :=
  [⟨some "a", some "female", none, none, none, some 0, some 0, none, some "s", some 0, none, some 0, none, none, some 0, none, none⟩,
   ⟨some "b", some "female", none, none, none, some 101, some 0, none, some "s", some 0, none, some 0, none, none, some 0, none, none⟩,
   ⟨some "c", some "female", none, none, none, some 199, some 0, none, some "s", some 0, none, some 0, none, none, some 0, none, none⟩]

/-- `tblClean` after the second pass's watch-time step (`watch_time_sec`
recomputed from the still-null `watch_time`). -/
def tblW1 : List CRow :=
  [⟨some "a", some "female", none, none, none, some 0, some 0, none, some "s", some 0, none, none, none, none, some 0, none, none⟩,
   ⟨some "b", some "female", none, none, none, some 101, some 0, none, some "s", some 0, none, none, none, none, some 0, none, none⟩,
   ⟨some "c", some "female", none, none, none, some 199, some 0, none, some "s", some 0, none, none, none, none, some 0, none, none⟩]

/-- `tblClean` after the second pass's feature step: `engagement_rate` is now
`0/duration` instead of `null/duration`. -/
def tblW2 : List CRow :=
  [⟨some "a", some "female", none, none, none, some 0, some 0, none, some "s", some 0, none, none, none, none, some 0, none, none⟩,
   ⟨some "b", some "female", none, none, none, some 101, some 0, none, some "s", some 0, none, none, none, some 0, some 0, none, none⟩,
   ⟨some "c", some "female", none, none, none, some 199, some 0, none, some "s", some 0, none, none, none, some 0, some 0, none, none⟩]

/-- `tblClean` after the second pass's capping step: the zero-filled
`duration_sec` distribution `[0, 101, 199]` is re-capped into
`[101/50, 4926/25]`. -/
def tblW3 : List CRow :=
  [⟨some "a", some "female", none, none, none, some (101/50), some 0, none, some "s", some 0, none, none, none, none, some 0, none, none⟩,
   ⟨some "b", some "female", none, none, none, some 101, some 0, none, some "s", some 0, none, none, none, some 0, some 0, none, none⟩,
   ⟨some "c", some "female", none, none, none, some (4926/25), some 0, none, some "s", some 0, none, none, none, some 0, some 0, none, none⟩]

/-- `clean_dataframe tblClean`: the second pass's output, different from
`tblClean`. -/
def tblClean2 : List CRow :=
  [⟨some "a", some "female", none, none, none, some (101/50), some 0, none, some "s", some 0, none, some 0, none, none, some 0, none, none⟩,
   ⟨some "b", some "female", none, none, none, some 101, some 0, none, some "s", some 0, none, some 0, none, some 0, some 0, none, none⟩,
   ⟨some "c", some "female", none, none, none, some (4926/25), some 0, none, some "s", some 0, none, some 0, none, some 0, some 0, none, none⟩]

/-- Two rows sharing `(student_id, course_name, timestamp)` with a null
timestamp in both: dedup keys compare equal through the null. -/
def dupRowA : CRow :=
  ⟨some "a", some "female", none, some "c1", none, none, none, none, some "s", none, none, none, none, none, none, none, none⟩

def dupRowB : CRow :=
  ⟨some "a", some "female", none, some "c1", none, none, none, none, some "s", some 5, none, none, none, none, none, none, none⟩

/-- A table whose `watch_time` column has median 45 (spec's end-to-end
minutes scenario). -/
def tblMinutes : List CRow :=
  [CRow.unified (some "a") none none none (some 30) (some 3600) none none (some "s") none none,
   CRow.unified (some "b") none none none (some 45) (some 3600) none none (some "s") none none,
   CRow.unified (some "c") none none none (some 60) (some 3600) none none (some "s") none none]

/-! # Theorems -/

/-! ## `dedupBy`: keep-first deduplication -/

theorem dedupBy_cons {α β : Type} [DecidableEq β] (key : α → β) (x : α) (xs : List α) :
    dedupBy key (x :: xs) = x :: dedupBy key (xs.filter fun y => decide (key y ≠ key x)) := by
  rw [dedupBy]

theorem dedupBy_subset {α β : Type} [DecidableEq β] (key : α → β) :
    ∀ l : List α, ∀ a ∈ dedupBy key l, a ∈ l := by
  intro l
  induction l using dedupBy.induct key with
  | case1 => simp [dedupBy]
  | case2 x xs ih =>
    intro a ha
    rcases List.mem_cons.mp (dedupBy_cons key x xs ▸ ha) with h | h
    · simp [h]
    · exact List.mem_cons_of_mem x (List.mem_of_mem_filter (ih a h))

theorem dedupBy_sublist {α β : Type} [DecidableEq β] (key : α → β) :
    ∀ l : List α, (dedupBy key l).Sublist l := by
  intro l
  induction l using dedupBy.induct key with
  | case1 => simp [dedupBy]
  | case2 x xs ih =>
    rw [dedupBy_cons]
    exact (ih.trans (List.filter_sublist xs)).cons₂ x

theorem dedupBy_keys_nodup {α β : Type} [DecidableEq β] (key : α → β) :
    ∀ l : List α, ((dedupBy key l).map key).Nodup := by
  intro l
  induction l using dedupBy.induct key with
  | case1 => simp [dedupBy]
  | case2 x xs ih =>
    rw [dedupBy_cons, List.map_cons, List.nodup_cons]
    refine ⟨?_, ih⟩
    intro hmem
    rcases List.mem_map.mp hmem with ⟨y, hy, hky⟩
    have hyf := dedupBy_subset key _ y hy
    have := List.of_mem_filter hyf
    simp only [decide_eq_true_eq] at this
    exact this hky

/-- Dropping elements that the predicate `p` can never select does not
change `find?`. -/
theorem find?_filter_of_imp {α : Type} (p q : α → Bool)
    (h : ∀ y, p y = true → q y = true) :
    ∀ l : List α, (l.filter q).find? p = l.find? p := by
  intro l
  induction l with
  | nil => rfl
  | cons c cs ih =>
    by_cases hq : q c = true
    · rw [List.filter_cons_of_pos hq, List.find?_cons, List.find?_cons]
      cases hp : p c
      · exact ih
      · rfl
    · have hp : p c = false := by
        cases hp : p c
        · rfl
        · exact absurd (h c hp) hq
      rw [List.filter_cons_of_neg (by simp [hq]), List.find?_cons, hp, ih]

/-- Every surviving row is the first row of the input carrying its key:
`drop_duplicates(keep="first")`. -/
theorem dedupBy_find?_first {α β : Type} [DecidableEq β] (key : α → β) :
    ∀ l : List α, ∀ r ∈ dedupBy key l,
      l.find? (fun y => decide (key y = key r)) = some r := by
  intro l
  induction l using dedupBy.induct key with
  | case1 => simp [dedupBy]
  | case2 x xs ih =>
    intro r hr
    rcases List.mem_cons.mp (dedupBy_cons key x xs ▸ hr) with h | h
    · subst h
      simp [List.find?_cons]
    · have hrf := dedupBy_subset key _ r h
      have hne : key r ≠ key x := by
        have := List.of_mem_filter hrf
        simpa using this
      rw [List.find?_cons]
      have hx : decide (key x = key r) = false := by
        simp only [decide_eq_false_iff_not]
        intro h'
        exact hne h'.symm
      simp only [hx]
      rw [← find?_filter_of_imp (fun y => decide (key y = key r))
            (fun y => decide (key y ≠ key x))
            (by intro y hy; simp only [decide_eq_true_eq] at hy ⊢; rw [hy]; exact hne) xs]
      exact ih r h

/-- Every input row's key survives deduplication. -/
theorem dedupBy_keys_complete {α β : Type} [DecidableEq β] (key : α → β) :
    ∀ l : List α, ∀ r ∈ l, key r ∈ (dedupBy key l).map key := by
  intro l
  induction l using dedupBy.induct key with
  | case1 => simp
  | case2 x xs ih =>
    intro r hr
    rw [dedupBy_cons, List.map_cons]
    rcases List.mem_cons.mp hr with h | h
    · subst h; exact List.mem_cons_self _ _
    · by_cases hk : key r = key x
      · rw [hk]; exact List.mem_cons_self _ _
      · exact List.mem_cons_of_mem _
          (ih r (List.mem_filter.mpr ⟨h, by simpa using hk⟩))

theorem dedupBy_idem {α β : Type} [DecidableEq β] (key : α → β) :
    ∀ l : List α, dedupBy key (dedupBy key l) = dedupBy key l := by
  intro l
  induction l using dedupBy.induct key with
  | case1 => simp [dedupBy]
  | case2 x xs ih =>
    rw [dedupBy_cons, dedupBy_cons]
    congr 1
    have hself :
        (dedupBy key (xs.filter fun y => decide (key y ≠ key x))).filter
          (fun y => decide (key y ≠ key x)) =
        dedupBy key (xs.filter fun y => decide (key y ≠ key x)) := by
      apply List.filter_eq_self.mpr
      intro y hy
      have hy' : y ∈ List.filter (fun y => decide (key y ≠ key x)) xs :=
        dedupBy_subset key _ y hy
      have hp := List.of_mem_filter hy'
      simpa using hp
    rw [hself, ih]

/-! ## Column projections of the table-level steps -/

theorem map_zipWith_watch_time_sec (rows : List CRow) (vs : QCol)
    (h : vs.length = rows.length) :
    (List.zipWith (fun r v => { r with watch_time_sec := v }) rows vs).map
      (·.watch_time_sec) = vs := by
  induction rows generalizing vs with
  | nil => cases vs with
    | nil => rfl
    | cons v vs => simp at h
  | cons r rs ih =>
    cases vs with
    | nil => simp at h
    | cons v vs =>
      simp only [List.zipWith_cons_cons, List.map_cons]
      exact congrArg (v :: ·) (ih vs (by simpa using h))

theorem watchTimeSecCol_length (col : QCol) : (watchTimeSecCol col).length = col.length := by
  unfold watchTimeSecCol
  cases pandasMedian col with
  | none => rfl
  | some m =>
    by_cases hm : 0 < m ∧ m < 100
    · simp [hm]
    · simp [hm]

/-- Every value `normalizeGender` can produce. -/
theorem genderMap_cases (s g : String) (h : genderMap s = some g) :
    g = "female" ∨ g = "male" ∨ g = "unknown" := by
  unfold genderMap at h
  split at h
  · exact Or.inl (Option.some.inj h).symm
  · split at h
    · exact Or.inr (Or.inl (Option.some.inj h).symm)
    · split at h
      · exact Or.inr (Or.inr (Option.some.inj h).symm)
      · exact absurd h (by simp)

theorem normalizeGender_eq (v : Option String) :
    normalizeGender v = (genderMap (pyStrip (pyLower (v.getD "nan")))).getD "unknown" := by
  cases v <;> rfl

theorem normalizeGender_mem (v : Option String) :
    normalizeGender v = "female" ∨ normalizeGender v = "male" ∨
      normalizeGender v = "unknown" := by
  rw [normalizeGender_eq]
  cases hg : genderMap (pyStrip (pyLower (v.getD "nan"))) with
  | none => exact Or.inr (Or.inr rfl)
  | some g =>
    simpa using genderMap_cases _ g hg

theorem normalizeGender_fix (g : String)
    (h : g = "female" ∨ g = "male" ∨ g = "unknown") :
    normalizeGender (some g) = g := by
  rcases h with h | h | h <;> subst h <;> decide

/-! ## Concrete evaluations of the cleaner (shared by several claims) -/

theorem cleanBeforeCap_tblU : cleanBeforeCap tblU = tblFeat := by
  have h1 : genderStep tblU = tblGender := by decide
  have h2 : watchTimeStep tblGender = tblGender := by decide
  have h3 : synthIdStep tblGender = tblGender := by decide
  have h4 : featureStep tblGender = tblFeat := by
    norm_num [featureStep, featureRow, pyDivF, replaceInfNan, tblGender, tblFeat]
  have h5 : dedupStep tblFeat = tblFeat := by
    simp [dedupStep, dedupBy, cleanKey, List.filter_cons, tblFeat]
  show dedupStep (featureStep (synthIdStep (timestampStep (watchTimeStep
    (numericCoerceStep (genderStep tblU)))))) = tblFeat
  rw [h1]
  show dedupStep (featureStep (synthIdStep (watchTimeStep tblGender))) = tblFeat
  rw [h2, h3, h4, h5]

theorem clean_tblU : clean_dataframe tblU = tblClean := by
  have h6 : capStep tblFeat = tblCapped := by
    norm_num [capStep, capField, cap_outliers_iqr, colQuantile, quantileSorted, sortedNonNull,
      nonNull, clipQ, List.insertionSort, List.orderedInsert, List.filterMap, List.cons_ne_nil,
      tblFeat, tblCapped]
  have h7 : fillStep tblCapped = tblClean := by decide
  show fillStep (capStep (cleanBeforeCap tblU)) = tblClean
  rw [cleanBeforeCap_tblU, h6, h7]

theorem clean_tblClean : clean_dataframe tblClean = tblClean2 := by
  have h1 : genderStep tblClean = tblClean := by decide
  have h2 : watchTimeStep tblClean = tblW1 := by decide
  have h3 : synthIdStep tblW1 = tblW1 := by decide
  have h4 : featureStep tblW1 = tblW2 := by
    norm_num [featureStep, featureRow, pyDivF, replaceInfNan, tblW1, tblW2]
  have h5 : dedupStep tblW2 = tblW2 := by
    simp [dedupStep, dedupBy, cleanKey, List.filter_cons, tblW2]
  have h6 : capStep tblW2 = tblW3 := by
    norm_num [capStep, capField, cap_outliers_iqr, colQuantile, quantileSorted, sortedNonNull,
      nonNull, clipQ, List.insertionSort, List.orderedInsert, List.filterMap, List.cons_ne_nil,
      tblW2, tblW3]
  have h7 : fillStep tblW3 = tblClean2 := by
    norm_num [fillStep, pandasMedian, sortedNonNull, nonNull, List.filterMap, tblW3, tblClean2,
      pyIntOfRat]
  show fillStep (capStep (dedupStep (featureStep (synthIdStep (timestampStep (watchTimeStep
    (numericCoerceStep (genderStep tblClean)))))))) = tblClean2
  rw [h1]
  show fillStep (capStep (dedupStep (featureStep (synthIdStep (watchTimeStep tblClean))))) =
    tblClean2
  rw [h2, h3, h4, h5, h6, h7]

/-! ## Claim C2 -/

/-- **C2** (confirmed): in the watch-time unit resolution, when the median of
the non-null `watch_time` values exists, is positive and is strictly below
100, every row's `watch_time_sec` is `watch_time * 60`; in every other case
(including an all-null column, whose median is `NaN`) `watch_time_sec`
equals `watch_time` unchanged. -/
theorem C2_watch_time_unit_resolution :
    (∀ rows : List CRow, ∀ m : ℚ,
      pandasMedian (rows.map (·.watch_time)) = some m → 0 < m → m < 100 →
      (watchTimeStep rows).map (·.watch_time_sec) =
        rows.map fun r => r.watch_time.map (· * 60)) ∧
    (∀ rows : List CRow,
      (∀ m : ℚ, pandasMedian (rows.map (·.watch_time)) = some m → ¬(0 < m ∧ m < 100)) →
      (watchTimeStep rows).map (·.watch_time_sec) = rows.map (·.watch_time)) := by
  constructor
  · intro rows m hmed h0 h100
    unfold watchTimeStep
    have hcol : watchTimeSecCol (rows.map (·.watch_time)) =
        (rows.map (·.watch_time)).map (Option.map (· * 60)) := by
      unfold watchTimeSecCol
      rw [hmed]
      simp [h0, h100]
    rw [hcol, map_zipWith_watch_time_sec _ _ (by simp), List.map_map]
    rfl
  · intro rows hno
    unfold watchTimeStep
    have hcol : watchTimeSecCol (rows.map (·.watch_time)) = rows.map (·.watch_time) := by
      unfold watchTimeSecCol
      cases hmed : pandasMedian (rows.map (·.watch_time)) with
      | none => rfl
      | some m => simp [hno m hmed]
    rw [hcol, map_zipWith_watch_time_sec _ _ (by simp)]

/-- Witness for C2 at the spec's minutes scenario: median 45 lies in
`(0, 100)`, so every `watch_time_sec` is `watch_time * 60`. -/
theorem C2_watch_time_unit_witness :
    (watchTimeStep tblMinutes).map (·.watch_time_sec) =
      tblMinutes.map fun r => r.watch_time.map (· * 60) :=
  C2_watch_time_unit_resolution.1 tblMinutes 45
    (by norm_num [tblMinutes, CRow.unified, pandasMedian, sortedNonNull, nonNull,
      List.filterMap, List.insertionSort, List.orderedInsert])
    (by norm_num) (by norm_num)

/-! ## Claim C3 -/

/-- **C3** (corrected): deduplication keeps a subsequence of the rows whose
`(student_id, course_name, timestamp)` keys are pairwise distinct, each
surviving row being the first input row bearing its key, and every input
row's key surviving — where two null key components compare *equal* (pandas
`drop_duplicates` treats `NaN` keys as duplicates of each other), so rows
with null key values are not exempt. -/
theorem C3_dedup_keep_first :
    (∀ rows : List CRow, (dedupStep rows).Sublist rows) ∧
    (∀ rows : List CRow, ((dedupStep rows).map cleanKey).Nodup) ∧
    (∀ rows : List CRow, ∀ r ∈ dedupStep rows,
      rows.find? (fun y => decide (cleanKey y = cleanKey r)) = some r) ∧
    (∀ rows : List CRow, ∀ r ∈ rows, cleanKey r ∈ (dedupStep rows).map cleanKey) :=
  ⟨fun rows => dedupBy_sublist cleanKey rows,
   fun rows => dedupBy_keys_nodup cleanKey rows,
   fun rows => dedupBy_find?_first cleanKey rows,
   fun rows => dedupBy_keys_complete cleanKey rows⟩

/-- Witness for C3: on `[dupRowA, dupRowB]` the first row with `dupRowA`'s
key is `dupRowA` itself, and `dupRowB`'s key survives deduplication. -/
theorem C3_dedup_keep_first_witness :
    [dupRowA, dupRowB].find? (fun y => decide (cleanKey y = cleanKey dupRowA)) =
      some dupRowA ∧
    cleanKey dupRowB ∈ (dedupStep [dupRowA, dupRowB]).map cleanKey := by
  constructor
  · refine C3_dedup_keep_first.2.2.1 [dupRowA, dupRowB] dupRowA ?_
    have h : dedupStep [dupRowA, dupRowB] = [dupRowA] := by
      simp [dedupStep, dedupBy, cleanKey, List.filter_cons, dupRowA, dupRowB]
    rw [h]
    exact List.mem_singleton_self _
  · exact C3_dedup_keep_first.2.2.2 [dupRowA, dupRowB] dupRowB (by simp)

/-- Counterexample to C3 as stated: `dupRowB` has a null `timestamp` key
component, yet it is removed — the dedup step collapses the two rows whose
keys agree with null compared equal to null. -/
theorem C3_counterexample :
    dupRowB.timestamp = none ∧ dupRowB ≠ dupRowA ∧
      dedupStep [dupRowA, dupRowB] = [dupRowA] := by
  refine ⟨rfl, by decide, ?_⟩
  simp [dedupStep, dedupBy, cleanKey, List.filter_cons, dupRowA, dupRowB]

/-! ## Claim C7 -/

/-- **C7** (confirmed): after gender normalization every row's
`student_gender` is `female`, `male` or `unknown`; the raw values `"F"`,
`"Homme"` and `"1"` map to `female`, `male` and `unknown`; any value whose
case-folded, trimmed form is outside the closed alias table maps to
`unknown`. -/
theorem C7_gender_normalization :
    (∀ rows : List CRow, ∀ r ∈ genderStep rows,
      r.student_gender = some "female" ∨ r.student_gender = some "male" ∨
        r.student_gender = some "unknown") ∧
    normalizeGender (some "F") = "female" ∧
    normalizeGender (some "Homme") = "male" ∧
    normalizeGender (some "1") = "unknown" ∧
    (∀ v : Option String,
      genderMap (pyStrip (pyLower (v.getD "nan"))) = none →
        normalizeGender v = "unknown") := by
  refine ⟨?_, by decide, by decide, by decide, ?_⟩
  · intro rows r hr
    rcases List.mem_map.mp hr with ⟨r0, _, hr0⟩
    have := normalizeGender_mem r0.student_gender
    rcases this with h | h | h
    · exact Or.inl (by rw [← hr0, h])
    · exact Or.inr (Or.inl (by rw [← hr0, h]))
    · exact Or.inr (Or.inr (by rw [← hr0, h]))
  · intro v hv
    rw [normalizeGender_eq, hv]
    rfl

/-- Witness for C7: the normalized form of a row with raw gender
`" Homme "` is in the closed set. -/
theorem C7_gender_normalization_witness :
    (⟨none, some "male", none, none, none, none, none, none, none, none, none,
        none, none, none, none, none, none⟩ : CRow).student_gender = some "female" ∨
    (⟨none, some "male", none, none, none, none, none, none, none, none, none,
        none, none, none, none, none, none⟩ : CRow).student_gender = some "male" ∨
    (⟨none, some "male", none, none, none, none, none, none, none, none, none,
        none, none, none, none, none, none⟩ : CRow).student_gender = some "unknown" :=
  C7_gender_normalization.1
    [CRow.unified none (some " Homme ") none none none none none none none none none] _
    (by decide)

/-! ## Claim C8 -/

/-- **C8** (confirmed): each row's `completion_rate` is the null-safe
division `watch_time_sec / duration_sec`: a zero or null denominator (and a
null numerator) gives null — the transient `±inf`/`NaN` of the raw division
is replaced — and otherwise the exact quotient is kept. -/
theorem C8_completion_rate_null_safe :
    (∀ rows : List CRow, (featureStep rows).map (·.completion_rate) =
      rows.map fun r => replaceInfNan (pyDivF r.watch_time_sec r.duration_sec)) ∧
    (∀ w : Option ℚ, replaceInfNan (pyDivF w (some 0)) = none) ∧
    (∀ w : Option ℚ, replaceInfNan (pyDivF w none) = none) ∧
    (∀ a b : ℚ, b ≠ 0 → replaceInfNan (pyDivF (some a) (some b)) = some (a / b)) := by
  refine ⟨?_, ?_, ?_, ?_⟩
  · intro rows
    unfold featureStep
    rw [List.map_map]
    rfl
  · intro w
    cases w with
    | none => rfl
    | some x =>
      have hcases : pyDivF (some x) (some 0) = .nan ∨ pyDivF (some x) (some 0) = .inf ∨
          pyDivF (some x) (some 0) = .ninf := by
        unfold pyDivF
        by_cases hx : x = 0
        · simp [hx]
        · by_cases hp : 0 < x
          · simp [hx, hp]
          · simp [hx, hp]
      rcases hcases with h | h | h <;> rw [h] <;> rfl
  · intro w; cases w <;> rfl
  · intro a b hb
    unfold pyDivF replaceInfNan
    simp [hb]

/-- Witness for C8: a nonzero denominator yields the exact quotient. -/
theorem C8_completion_rate_witness :
    replaceInfNan (pyDivF (some 3) (some 4)) = some (3 / 4) :=
  C8_completion_rate_null_safe.2.2.2 3 4 (by norm_num)

/-! ## Claim C9 -/

/-- Counterexample to C9 as stated: cleaning its own output changes the
table — the second pass re-caps the `duration_sec` distribution after the
first pass's zero-fill, moving `0 ↦ 101/50` and `199 ↦ 4926/25`. -/
theorem C9_counterexample :
    clean_dataframe (clean_dataframe tblU) ≠ clean_dataframe tblU := by
  rw [clean_tblU, clean_tblClean]
  norm_num [tblClean2, tblClean]

/-- **C9** (corrected): the cleaner as a whole is *not* idempotent
(`C9_counterexample`); the deduplication and gender-normalization steps,
however, are. -/
theorem C9_partial_idempotence :
    (∀ rows : List CRow, dedupStep (dedupStep rows) = dedupStep rows) ∧
    (∀ rows : List CRow, genderStep (genderStep rows) = genderStep rows) := by
  constructor
  · intro rows
    exact dedupBy_idem cleanKey rows
  · intro rows
    unfold genderStep
    rw [List.map_map]
    apply List.map_congr_left
    intro r _
    simp only [Function.comp]
    congr 1
    exact congrArg some (normalizeGender_fix _ (normalizeGender_mem r.student_gender))

/-! ## Claim C4 -/

/-- **C4** (code bug): `"abc"` indeed coerces to null, but the malformed
`"1:2:3:4"` — four colon-separated integers, matching neither the regex nor
a 1/2/3-part time — falls out of the `try` block and dereferences
`m.group(...)` with `m = None`, raising `AttributeError` instead of
returning null. -/
theorem C4_malformed_can_raise :
    iso8601_duration_to_seconds "abc" = .ok none ∧
    iso8601_duration_to_seconds "1:2:3:4" = .exn := by
  constructor
  · decide
  · decide

/-! ## Claim C6: quantile monotonicity and the capping range -/

theorem sorted_getD_mono (v : List ℚ) (hs : List.Sorted (· ≤ ·) v)
    (a b : Nat) (hab : a ≤ b) (hb : b < v.length) :
    v.getD a 0 ≤ v.getD b 0 := by
  have ha : a < v.length := lt_of_le_of_lt hab hb
  rw [List.getD_eq_getElem v 0 ha, List.getD_eq_getElem v 0 hb]
  have h := hs.rel_get_of_le (a := ⟨a, ha⟩) (b := ⟨b, hb⟩) hab
  simpa using h

theorem quantileSorted_eq_interpAt (v : List ℚ) (q : ℚ) :
    quantileSorted v q = interpAt v (q * ((v.length : ℚ) - 1)) := rfl

theorem interpAt_mono (v : List ℚ) (hs : List.Sorted (· ≤ ·) v)
    (x y : ℚ) (hx : 0 ≤ x) (hxy : x ≤ y) (hyN : y ≤ (v.length : ℚ) - 1) :
    interpAt v x ≤ interpAt v y := by
  have hy : 0 ≤ y := le_trans hx hxy
  have hn1 : 1 ≤ v.length := by
    rcases Nat.eq_zero_or_pos v.length with h0 | h1
    · rw [h0] at hyN
      norm_num at hyN
      linarith
    · exact h1
  simp only [interpAt]
  set i := (Int.floor x).toNat with hidef
  set j := (Int.floor y).toNat with hjdef
  have hiZ : ((i : ℤ)) = Int.floor x := Int.toNat_of_nonneg (Int.floor_nonneg.mpr hx)
  have hjZ : ((j : ℤ)) = Int.floor y := Int.toNat_of_nonneg (Int.floor_nonneg.mpr hy)
  have hix : (i : ℚ) ≤ x := by
    have h := Int.floor_le x
    rw [← hiZ] at h
    exact_mod_cast h
  have hxi : x < (i : ℚ) + 1 := by
    have h := Int.lt_floor_add_one x
    rw [← hiZ] at h
    exact_mod_cast h
  have hjy : (j : ℚ) ≤ y := by
    have h := Int.floor_le y
    rw [← hjZ] at h
    exact_mod_cast h
  have hij : i ≤ j := by
    have h := Int.floor_mono hxy
    have := Int.toNat_le_toNat h
    rwa [← hidef, ← hjdef] at this
  have hjn : j < v.length := by
    have hq : (j : ℚ) + 1 ≤ (v.length : ℚ) := by
      have := le_trans hjy hyN
      linarith
    exact_mod_cast Nat.lt_of_succ_le (by exact_mod_cast hq)
  rcases Nat.lt_or_ge i j with hlt | hge
  · -- different segments: pass through v[i+1] ≤ v[j]
    have hin : i + 1 < v.length := lt_of_le_of_lt hlt hjn
    rw [if_pos hin]
    have hΔ : 0 ≤ v.getD (i + 1) 0 - v.getD i 0 := by
      have := sorted_getD_mono v hs i (i + 1) (Nat.le_succ i) hin
      linarith
    have hlhs : v.getD i 0 + (x - (i : ℚ)) * (v.getD (i + 1) 0 - v.getD i 0) ≤
        v.getD (i + 1) 0 := by
      have hfrac : x - (i : ℚ) ≤ 1 := by linarith
      nlinarith
    by_cases hjn1 : j + 1 < v.length
    · rw [if_pos hjn1]
      have hΔ' : 0 ≤ v.getD (j + 1) 0 - v.getD j 0 := by
        have := sorted_getD_mono v hs j (j + 1) (Nat.le_succ j) hjn1
        linarith
      have hfrac' : 0 ≤ y - (j : ℚ) := by linarith
      have hmid : v.getD (i + 1) 0 ≤ v.getD j 0 :=
        sorted_getD_mono v hs (i + 1) j hlt hjn
      nlinarith
    · rw [if_neg hjn1]
      have hj1 : i + 1 ≤ v.length - 1 := by omega
      have := sorted_getD_mono v hs (i + 1) (v.length - 1) hj1 (by omega)
      linarith
  · -- same segment
    have heq : i = j := le_antisymm (by omega) hge
    rw [heq] at hix hxi
    rw [heq]
    by_cases hin : j + 1 < v.length
    · rw [if_pos hin, if_pos hin]
      have hΔ : 0 ≤ v.getD (j + 1) 0 - v.getD j 0 := by
        have := sorted_getD_mono v hs j (j + 1) (Nat.le_succ j) hin
        linarith
      nlinarith
    · rw [if_neg hin, if_neg hin]

theorem quantileSorted_mono (v : List ℚ) (hs : List.Sorted (· ≤ ·) v) (hv : v ≠ [])
    (q q' : ℚ) (h0 : 0 ≤ q) (hqq : q ≤ q') (h1 : q' ≤ 1) :
    quantileSorted v q ≤ quantileSorted v q' := by
  rw [quantileSorted_eq_interpAt, quantileSorted_eq_interpAt]
  have hn : 1 ≤ v.length := List.length_pos.mpr hv
  have hN : (0 : ℚ) ≤ (v.length : ℚ) - 1 := by
    have : (1 : ℚ) ≤ (v.length : ℚ) := by exact_mod_cast hn
    linarith
  exact interpAt_mono v hs _ _ (mul_nonneg h0 hN)
    (mul_le_mul_of_nonneg_right hqq hN)
    (by calc q' * ((v.length : ℚ) - 1) ≤ 1 * ((v.length : ℚ) - 1) :=
          mul_le_mul_of_nonneg_right h1 hN
        _ = (v.length : ℚ) - 1 := one_mul _)

/-- **C6** (corrected): `cap_outliers_iqr` leaves an entirely-null column
unchanged, and every *non-null* value it produces lies within the closed
`[p1, p99]` range of the column's non-null distribution — but the claim's
"every value in the final output" fails, because the later missing-value
step fills nulls of the capped columns with 0, which can lie outside the
range (`C6_counterexample`). -/
theorem C6_cap_within_percentiles :
    (∀ s : QCol, nonNull s = [] → cap_outliers_iqr s (1/100) (99/100) = s) ∧
    (∀ s : QCol, nonNull s ≠ [] → ∀ x : ℚ,
      some x ∈ cap_outliers_iqr s (1/100) (99/100) →
      colQuantile s (1/100) ≤ x ∧ x ≤ colQuantile s (99/100)) := by
  constructor
  · intro s hs
    unfold cap_outliers_iqr
    rw [if_pos hs]
  · intro s hs x hx
    have hsorted : List.Sorted (· ≤ ·) (sortedNonNull s) :=
      List.sorted_insertionSort (· ≤ ·) (nonNull s)
    have hne : sortedNonNull s ≠ [] := by
      intro hcon
      apply hs
      have hlen := (List.perm_insertionSort (· ≤ ·) (nonNull s)).length_eq
      rw [show List.insertionSort (· ≤ ·) (nonNull s) = sortedNonNull s from rfl,
        hcon] at hlen
      exact List.length_eq_zero.mp hlen.symm
    have hlohi : colQuantile s (1/100) ≤ colQuantile s (99/100) :=
      quantileSorted_mono _ hsorted hne _ _ (by norm_num) (by norm_num) (by norm_num)
    unfold cap_outliers_iqr at hx
    rw [if_neg hs] at hx
    simp only at hx
    rcases List.mem_map.mp hx with ⟨o, _, hoe⟩
    cases o with
    | none => simp at hoe
    | some y =>
      simp only [Option.map_some'] at hoe
      have hxy := Option.some.inj hoe
      rw [← hxy]
      unfold clipQ
      exact ⟨le_min (le_max_right y _) hlohi, min_le_right _ _⟩

/-- Witness for C6 on the column `[null, 100, 200]`: the capped value 101
lies within `[p1, p99]`. -/
theorem C6_cap_within_percentiles_witness :
    colQuantile [none, some 100, some 200] (1/100) ≤ 101 ∧
    (101 : ℚ) ≤ colQuantile [none, some 100, some 200] (99/100) :=
  C6_cap_within_percentiles.2 [none, some 100, some 200] (by decide) 101
    (by norm_num [cap_outliers_iqr, colQuantile, quantileSorted, sortedNonNull, nonNull,
      List.filterMap, List.insertionSort, List.orderedInsert, clipQ, List.cons_ne_nil])

/-- Counterexample to C6 as stated: after the full cleaner runs on `tblU`,
the `duration_sec` column holds the zero-filled value 0, outside the range
`[p1, p99] = [101, 199]` of its pre-capping distribution `[null, 100, 200]`. -/
theorem C6_counterexample :
    (cleanBeforeCap tblU).map (·.duration_sec) = [none, some 100, some 200] ∧
    colQuantile ((cleanBeforeCap tblU).map (·.duration_sec)) (1/100) = 101 ∧
    colQuantile ((cleanBeforeCap tblU).map (·.duration_sec)) (99/100) = 199 ∧
    some (0 : ℚ) ∈ (clean_dataframe tblU).map (·.duration_sec) ∧
    ¬((101 : ℚ) ≤ 0) := by
  rw [cleanBeforeCap_tblU, clean_tblU]
  refine ⟨by decide, ?_, ?_, ?_, by norm_num⟩
  · norm_num [colQuantile, quantileSorted, sortedNonNull, nonNull, List.filterMap,
      tblFeat, List.insertionSort, List.orderedInsert]
  · norm_num [colQuantile, quantileSorted, sortedNonNull, nonNull, List.filterMap,
      tblFeat, List.insertionSort, List.orderedInsert]
  · simp [tblClean]

/-! ## Claim C1: dataframe access through the unifier's steps -/

theorem getColD_eq (df : DataFrame) (n : String) (vals : List PyVal)
    (h : df.getCol? n = some vals) : df.getColD n = vals := by
  unfold DataFrame.getColD
  rw [h]
  rfl

theorem find?_map_setCol_self (cols : List (String × List PyVal)) (n : String)
    (vals : List PyVal) (h : (cols.find? fun c => c.1 = n).isSome = true) :
    ((cols.map fun c => if c.1 = n then (n, vals) else c).find? fun c => c.1 = n) =
      some (n, vals) := by
  induction cols with
  | nil => simp at h
  | cons c cs ih =>
    by_cases hc : c.1 = n
    · simp only [List.map_cons, if_pos hc]
      rw [List.find?_cons_of_pos _ (by simp)]
    · simp only [List.map_cons, if_neg hc]
      rw [List.find?_cons_of_neg _ (by simpa using hc)]
      rw [List.find?_cons_of_neg _ (by simpa using hc)] at h
      exact ih h

theorem find?_map_setCol_other (cols : List (String × List PyVal)) (n m : String)
    (vals : List PyVal) (h : m ≠ n) :
    ((cols.map fun c => if c.1 = n then (n, vals) else c).find? fun c => c.1 = m) =
      cols.find? fun c => c.1 = m := by
  induction cols with
  | nil => rfl
  | cons c cs ih =>
    by_cases hc : c.1 = n
    · simp only [List.map_cons, if_pos hc]
      rw [List.find?_cons_of_neg _ (by simp only [decide_eq_true_eq]; exact fun hnm => h hnm.symm),
        List.find?_cons_of_neg _ (by simp only [decide_eq_true_eq, hc]; exact fun hnm => h hnm.symm)]
      exact ih
    · simp only [List.map_cons, if_neg hc]
      simp only [List.find?_cons]
      cases hp : decide (c.1 = m) with
      | false => simpa only [hp] using ih
      | true => simp only [hp]

theorem getCol?_isSome_find? (df : DataFrame) (n : String)
    (hex : (df.getCol? n).isSome = true) :
    (df.cols.find? fun c => c.1 = n).isSome = true := by
  unfold DataFrame.getCol? at hex
  cases hf : df.cols.find? fun c => c.1 = n
  · rw [hf] at hex
    simp at hex
  · rfl

theorem getCol?_setCol_self (df : DataFrame) (n : String) (vals : List PyVal) :
    (df.setCol n vals).getCol? n = some vals := by
  unfold DataFrame.setCol
  by_cases hex : (df.getCol? n).isSome
  · rw [if_pos hex]
    show Option.map (·.2) (List.find? (fun c => c.1 = n)
      (df.cols.map fun c => if c.1 = n then (n, vals) else c)) = some vals
    rw [find?_map_setCol_self df.cols n vals (getCol?_isSome_find? df n hex)]
    rfl
  · rw [if_neg hex]
    show Option.map (·.2) (List.find? (fun c => c.1 = n) (df.cols ++ [(n, vals)])) = some vals
    rw [List.find?_append]
    have hnone : df.cols.find? (fun c => c.1 = n) = none := by
      cases hf : df.cols.find? fun c => c.1 = n
      · rfl
      · unfold DataFrame.getCol? at hex
        rw [hf] at hex
        simp at hex
    rw [hnone]
    simp

theorem getCol?_setCol_other (df : DataFrame) (n m : String) (vals : List PyVal)
    (h : m ≠ n) : (df.setCol n vals).getCol? m = df.getCol? m := by
  unfold DataFrame.setCol
  by_cases hex : (df.getCol? n).isSome
  · rw [if_pos hex]
    show Option.map (·.2) (List.find? (fun c => c.1 = m)
      (df.cols.map fun c => if c.1 = n then (n, vals) else c)) = df.getCol? m
    rw [find?_map_setCol_other df.cols n m vals h]
    rfl
  · rw [if_neg hex]
    show Option.map (·.2) (List.find? (fun c => c.1 = m) (df.cols ++ [(n, vals)])) =
      df.getCol? m
    rw [List.find?_append]
    have hzero : List.find? (fun c => c.1 = m) [(n, vals)] = none := by
      simp only [List.find?_cons, List.find?_nil, decide_eq_true_eq]
      have : ¬n = m := fun hnm => h hnm.symm
      simp [this]
    rw [hzero]
    unfold DataFrame.getCol?
    cases List.find? (fun c => c.1 = m) df.cols <;> rfl

theorem getCol?_renameCols (m : List (String × String)) (df : DataFrame) (name : String)
    (hkey : ∀ p ∈ m, p.1 ≠ name) (htgt : ∀ p ∈ m, p.2 ≠ name) :
    (renameCols m df).getCol? name = df.getCol? name := by
  unfold renameCols DataFrame.getCol?
  simp only
  induction df.cols with
  | nil => rfl
  | cons c cs ih =>
    simp only [List.map_cons]
    by_cases hc : c.1 = name
    · have hfind : m.find? (fun p => p.1 = c.1) = none := by
        apply List.find?_eq_none.mpr
        intro p hp
        simp only [decide_eq_true_eq]
        intro hpc
        exact hkey p hp (hpc.trans hc)
      rw [hfind]
      simp only [Option.map_none', Option.getD_none]
      rw [List.find?_cons_of_pos _ (by simpa using hc),
        List.find?_cons_of_pos _ (by simpa using hc)]
    · have hnew : (((m.find? fun p => p.1 = c.1).map (·.2)).getD c.1) ≠ name := by
        cases hf : m.find? fun p => p.1 = c.1 with
        | none => simpa using hc
        | some p =>
          simp only [Option.map_some', Option.getD_some]
          exact htgt p (List.mem_of_find?_eq_some hf)
      rw [List.find?_cons_of_neg _ (by simpa using hnew),
        List.find?_cons_of_neg _ (by simpa using hc)]
      exact ih

theorem getCol?_addMissingRequired (df : DataFrame) (name : String)
    (h : name ∉ requiredCols) :
    (addMissingRequired df).getCol? name = df.getCol? name := by
  unfold addMissingRequired DataFrame.getCol?
  simp only
  rw [List.find?_append]
  have hright : ((requiredCols.filter fun c => decide (c ∉ df.cols.map (·.1))).map
      fun c => (c, List.replicate df.nrows PyVal.null)).find? (fun c => c.1 = name) = none := by
    apply List.find?_eq_none.mpr
    intro x hx
    rcases List.mem_map.mp hx with ⟨c, hc, hce⟩
    have hcr : c ∈ requiredCols := (List.mem_filter.mp hc).1
    simp only [decide_eq_true_eq]
    intro hxn
    rw [← hce] at hxn
    exact h (hxn ▸ hcr)
  rw [hright]
  cases List.find? (fun c => c.1 = name) df.cols <;> rfl

theorem getCol?_coerce_foldl (l : List String) (df : DataFrame) (name : String)
    (h : name ∉ l) :
    (l.foldl coerceOne df).getCol? name = df.getCol? name := by
  induction l generalizing df with
  | nil => rfl
  | cons n ns ih =>
    have hn : name ≠ n := fun he => h (he ▸ List.mem_cons_self n ns)
    have hns : name ∉ ns := fun he => h (List.mem_cons_of_mem n he)
    rw [List.foldl_cons, ih _ hns]
    unfold coerceOne
    by_cases hc : (df.getCol? n).isSome
    · rw [if_pos hc, getCol?_setCol_other df n name _ hn]
    · rw [if_neg hc]

theorem getCol?_coerceNumericCols (df : DataFrame) (name : String)
    (h : name ∉ numericCandidatesUnify) :
    (coerceNumericCols df).getCol? name = df.getCol? name :=
  getCol?_coerce_foldl numericCandidatesUnify df name h

theorem getCol?_datetimeCol (df : DataFrame) (name : String) (h : name ≠ "timestamp") :
    (datetimeCol df).getCol? name = df.getCol? name := by
  unfold datetimeCol
  by_cases hc : (df.getCol? "timestamp").isSome
  · rw [if_pos hc, getCol?_setCol_other df _ name _ h]
  · rw [if_neg hc]

theorem getCol?_sourceFileCol_tag (df : DataFrame) (sf : List PyVal)
    (h : df.getCol? "_source_file" = some sf) :
    (sourceFileCol df).getCol? "source_file" = some sf := by
  unfold sourceFileCol
  rw [if_pos (by rw [h]; rfl), getColD_eq df _ sf h, getCol?_setCol_self]

theorem getCol?_sourceFileCol_other (df : DataFrame) (name : String)
    (h : name ≠ "source_file") :
    (sourceFileCol df).getCol? name = df.getCol? name := by
  unfold sourceFileCol
  by_cases h1 : (df.getCol? "_source_file").isSome
  · rw [if_pos h1, getCol?_setCol_other df _ name _ h]
  · rw [if_neg h1]
    by_cases h2 : (df.getCol? "source").isSome
    · rw [if_pos h2, getCol?_setCol_other df _ name _ h]
    · rw [if_neg h2, getCol?_setCol_other df _ name _ h]

theorem getCol?_synthStudentIds_self (df : DataFrame) :
    (synthStudentIds df).getCol? "student_id" =
      some ((List.range df.nrows).map fun i =>
        PyVal.str (fstr ((df.getColD "source_file").getD i PyVal.null) ++ "_" ++ natRepr i)) :=
  getCol?_setCol_self df _ _

theorem getCol?_synthStudentIds_other (df : DataFrame) (name : String)
    (h : name ≠ "student_id") :
    (synthStudentIds df).getCol? name = df.getCol? name :=
  getCol?_setCol_other df _ name _ h

theorem find?_filterMap_none (l : List String) (df : DataFrame) (name : String)
    (h : name ∉ l) :
    ((l.filterMap fun n => df.cols.find? fun c => c.1 = n).find?
      fun c => c.1 = name) = none := by
  apply List.find?_eq_none.mpr
  intro x hx
  rcases List.mem_filterMap.mp hx with ⟨mname, hm, hfind⟩
  have hx1 : x.1 = mname := by simpa using List.find?_some hfind
  simp only [decide_eq_true_eq]
  intro hxn
  exact h ((hx1.symm.trans hxn) ▸ hm)

theorem find?_filterMap_some (l : List String) (df : DataFrame) (name : String)
    (col : String × List PyVal) (hmem : name ∈ l)
    (hfind : df.cols.find? (fun c => c.1 = name) = some col) :
    ((l.filterMap fun n => df.cols.find? fun c => c.1 = n).find?
      fun c => c.1 = name) = some col := by
  induction l with
  | nil => simp at hmem
  | cons mname ms ih =>
    by_cases hmn : mname = name
    · subst hmn
      simp only [List.filterMap_cons, hfind]
      rw [List.find?_cons_of_pos _ (by simpa using List.find?_some hfind)]
    · have hm' : name ∈ ms := by
        rcases List.mem_cons.mp hmem with h | h
        · exact absurd h.symm hmn
        · exact h
      simp only [List.filterMap_cons]
      cases hf : df.cols.find? fun c => c.1 = mname with
      | none => exact ih hm'
      | some colm =>
        have : colm.1 = mname := by simpa using List.find?_some hf
        rw [List.find?_cons_of_neg _ (by simp [this, hmn])]
        exact ih hm'

theorem getCol?_reorderKeep (df : DataFrame) (name : String) (hname : name ∈ keepOrder) :
    (reorderKeep df).getCol? name = df.getCol? name := by
  unfold reorderKeep DataFrame.getCol?
  simp only
  rw [List.find?_append]
  cases hfind : df.cols.find? fun c => c.1 = name with
  | some col =>
    have hn : name ∈ df.cols.map (·.1) := by
      have hc1 : col.1 = name := by simpa using List.find?_some hfind
      exact hc1 ▸ List.mem_map_of_mem (·.1) (List.mem_of_find?_eq_some hfind)
    have hex : name ∈ keepOrder.filter fun c => decide (c ∈ df.cols.map (·.1)) :=
      List.mem_filter.mpr ⟨hname, by simpa using hn⟩
    rw [find?_filterMap_some _ df name col hex hfind]
    rfl
  | none =>
    have hno : ∀ x ∈ df.cols, ¬(decide (x.1 = name) = true) := List.find?_eq_none.mp hfind
    have hnotin : name ∉ keepOrder.filter fun c => decide (c ∈ df.cols.map (·.1)) := by
      intro hmem
      have := (List.mem_filter.mp hmem).2
      simp only [decide_eq_true_eq] at this
      rcases List.mem_map.mp this with ⟨c, hc, hcn⟩
      exact hno c hc (by simpa using hcn)
    rw [find?_filterMap_none _ df name hnotin]
    have hright : (df.cols.filter fun c =>
        decide (c.1 ∉ keepOrder.filter fun c => decide (c ∈ df.cols.map (·.1)))).find?
          (fun c => c.1 = name) = none := by
      apply List.find?_eq_none.mpr
      intro x hx
      exact hno x (List.mem_of_mem_filter hx)
    rw [hright]
    rfl

/-! ## Decimal rendering: correctness and injectivity -/

theorem natReprAux_eq_natDigits (fuel : Nat) :
    ∀ (n : Nat) (acc : List Char), n < fuel →
      natReprAux fuel n acc = natDigits n ++ acc := by
  induction fuel with
  | zero => intro n acc h; omega
  | succ f ih =>
    intro n acc h
    by_cases h10 : n < 10
    · simp only [natReprAux, if_pos h10]
      rw [natDigits, dif_pos h10]
      rfl
    · simp only [natReprAux, if_neg h10]
      have hdiv : n / 10 < f := by
        have h1 : n / 10 < n := Nat.div_lt_self (by omega) (by omega)
        omega
      have hnd : natDigits n = natDigits (n / 10) ++ [Nat.digitChar (n % 10)] := by
        rw [natDigits, dif_neg h10]
      rw [ih (n / 10) _ hdiv, hnd, List.append_assoc]
      rfl

theorem natRepr_eq_natDigits (n : Nat) : (natRepr n).data = natDigits n := by
  unfold natRepr
  show natReprAux (n + 1) n [] = natDigits n
  rw [natReprAux_eq_natDigits (n + 1) n [] (Nat.lt_succ_self n), List.append_nil]

theorem digitsVal_append_singleton (l : List Char) (c : Char) :
    digitsVal (l ++ [c]) = 10 * digitsVal l + (c.toNat - 48) := by
  unfold digitsVal
  rw [List.foldl_append]
  rfl

theorem digitChar_toNat_sub (k : Nat) (h : k < 10) : (Nat.digitChar k).toNat - 48 = k := by
  interval_cases k <;> decide

theorem digitsVal_natDigits (n : Nat) : digitsVal (natDigits n) = n := by
  induction n using Nat.strong_induction_on with
  | _ n ih =>
    by_cases h : n < 10
    · rw [natDigits, dif_pos h]
      show digitsVal [Nat.digitChar n] = n
      have : digitsVal [Nat.digitChar n] = 10 * 0 + ((Nat.digitChar n).toNat - 48) := rfl
      rw [this, digitChar_toNat_sub n h]
      omega
    · rw [natDigits, dif_neg h, digitsVal_append_singleton,
        ih (n / 10) (Nat.div_lt_self (by omega) (by omega)),
        digitChar_toNat_sub _ (Nat.mod_lt n (by omega))]
      omega

theorem natRepr_injective : Function.Injective natRepr := by
  intro a b hab
  have hd : natDigits a = natDigits b := by
    rw [← natRepr_eq_natDigits, ← natRepr_eq_natDigits, hab]
  calc a = digitsVal (natDigits a) := (digitsVal_natDigits a).symm
    _ = digitsVal (natDigits b) := by rw [hd]
    _ = b := digitsVal_natDigits b

/-! ## Claim C5: the duration grammar on rendered integers -/

theorem natDigits_mem_decDigits (n : Nat) : ∀ c ∈ natDigits n, c ∈ decDigits := by
  induction n using Nat.strong_induction_on with
  | _ n ih =>
    by_cases h : n < 10
    · rw [natDigits, dif_pos h]
      intro c hc
      rcases List.mem_singleton.mp hc with rfl
      interval_cases n <;> decide
    · rw [natDigits, dif_neg h]
      intro c hc
      rcases List.mem_append.mp hc with hl | hr
      · exact ih (n / 10) (Nat.div_lt_self (by omega) (by omega)) c hl
      · rcases List.mem_singleton.mp hr with rfl
        have hm : n % 10 < 10 := Nat.mod_lt n (by omega)
        interval_cases hmod : (n % 10) <;> simp_all <;> decide

theorem natDigits_ne_nil (n : Nat) : natDigits n ≠ [] := by
  rw [natDigits]
  split
  · simp
  · simp

theorem decDigits_isDigit : ∀ c ∈ decDigits, c.isDigit = true := by decide

theorem decDigits_toUpper : ∀ c ∈ decDigits, c.toUpper = c := by decide

theorem decDigits_noSpace : ∀ c ∈ decDigits, isPySpace c = false := by decide

theorem decDigits_ne_special :
    ∀ c ∈ decDigits, c ≠ 'P' ∧ c ≠ '+' ∧ c ≠ '-' ∧ c ≠ ':' := by decide

theorem dropWhile_of_forall_neg {α : Type} (p : α → Bool) (l : List α)
    (h : ∀ c ∈ l, p c = false) : l.dropWhile p = l := by
  cases l with
  | nil => rfl
  | cons c cs =>
    rw [List.dropWhile_cons, if_neg (by rw [h c (List.mem_cons_self c cs)]; simp)]

theorem stripChars_of_no_space (cs : List Char) (h : ∀ c ∈ cs, isPySpace c = false) :
    stripChars cs = cs := by
  unfold stripChars
  rw [dropWhile_of_forall_neg isPySpace cs h,
    dropWhile_of_forall_neg isPySpace cs.reverse
      (fun c hc => h c (List.mem_reverse.mp hc)),
    List.reverse_reverse]

theorem pyStrip_fix (s : String) (h : ∀ c ∈ s.data, isPySpace c = false) :
    pyStrip s = s := by
  unfold pyStrip
  apply String.ext
  exact stripChars_of_no_space s.data h

theorem pyUpper_fix (s : String) (h : ∀ c ∈ s.data, c.toUpper = c) :
    pyUpper s = s := by
  unfold pyUpper
  apply String.ext
  show s.data.map Char.toUpper = s.data
  calc s.data.map Char.toUpper = s.data.map id := List.map_congr_left h
    _ = s.data := List.map_id s.data

theorem takeWhile_append_stop (p : Char → Bool) (ds : List Char) (t : Char)
    (rest : List Char) (hd : ∀ c ∈ ds, p c = true) (ht : p t = false) :
    (ds ++ t :: rest).takeWhile p = ds := by
  induction ds with
  | nil =>
    rw [List.nil_append, List.takeWhile_cons, if_neg (by rw [ht]; simp)]
  | cons d ds' ih =>
    rw [List.cons_append, List.takeWhile_cons,
      if_pos (hd d (List.mem_cons_self d ds')),
      ih fun c hc => hd c (List.mem_cons_of_mem d hc)]

theorem dropWhile_append_stop (p : Char → Bool) (ds : List Char) (t : Char)
    (rest : List Char) (hd : ∀ c ∈ ds, p c = true) (ht : p t = false) :
    (ds ++ t :: rest).dropWhile p = t :: rest := by
  induction ds with
  | nil =>
    rw [List.nil_append, List.dropWhile_cons, if_neg (by rw [ht]; simp)]
  | cons d ds' ih =>
    rw [List.cons_append, List.dropWhile_cons,
      if_pos (hd d (List.mem_cons_self d ds')),
      ih fun c hc => hd c (List.mem_cons_of_mem d hc)]

theorem numGroup_hit (tag : Char) (ds rest : List Char) (hne : ds ≠ [])
    (hd : ∀ c ∈ ds, c.isDigit = true) (htag : tag.isDigit = false) :
    numGroup tag (ds ++ tag :: rest) = some (digitsVal ds, rest) := by
  unfold numGroup
  rw [List.span_eq_take_drop, takeWhile_append_stop _ ds tag rest hd htag,
    dropWhile_append_stop _ ds tag rest hd htag]
  cases ds with
  | nil => exact absurd rfl hne
  | cons d ds' =>
    show (if tag = tag then some (digitsVal (d :: ds'), rest) else none) = _
    rw [if_pos rfl]

theorem isoMatch_none_of_head (s : String) (h : ∀ cs : List Char, s.data ≠ 'P' :: cs) :
    isoMatch s = none := by
  unfold isoMatch
  split
  · rename_i cs0 heq
    exact absurd heq (h ('T' :: cs0))
  · rfl

theorem splitOnCharAux_no_sep (sep : Char) (xs : List Char) :
    ∀ acc : List Char, (∀ c ∈ xs, c ≠ sep) →
      splitOnCharAux sep xs acc = [acc.reverse ++ xs] := by
  induction xs with
  | nil => intro acc _; simp [splitOnCharAux]
  | cons c cs ih =>
    intro acc h
    rw [splitOnCharAux, if_neg (h c (List.mem_cons_self c cs)),
      ih (c :: acc) fun x hx => h x (List.mem_cons_of_mem c hx)]
    simp

theorem splitOnCharAux_hit (sep : Char) (xs : List Char) :
    ∀ (rest acc : List Char), (∀ c ∈ xs, c ≠ sep) →
      splitOnCharAux sep (xs ++ sep :: rest) acc =
        (acc.reverse ++ xs) :: splitOnCharAux sep rest [] := by
  induction xs with
  | nil =>
    intro rest acc _
    rw [List.nil_append, splitOnCharAux, if_pos rfl]
    simp
  | cons c cs ih =>
    intro rest acc h
    rw [List.cons_append, splitOnCharAux, if_neg (h c (List.mem_cons_self c cs)),
      ih rest (c :: acc) fun x hx => h x (List.mem_cons_of_mem c hx)]
    simp

theorem natDigits_isDigit (n : Nat) : ∀ c ∈ natDigits n, c.isDigit = true :=
  fun c hc => decDigits_isDigit c (natDigits_mem_decDigits n c hc)

theorem natDigits_noSpace (n : Nat) : ∀ c ∈ natDigits n, isPySpace c = false :=
  fun c hc => decDigits_noSpace c (natDigits_mem_decDigits n c hc)

theorem natDigits_toUpper (n : Nat) : ∀ c ∈ natDigits n, c.toUpper = c :=
  fun c hc => decDigits_toUpper c (natDigits_mem_decDigits n c hc)

theorem mkString_natDigits (n : Nat) : (⟨natDigits n⟩ : String) = natRepr n :=
  String.ext (natRepr_eq_natDigits n).symm

theorem pyInt?_natRepr (n : Nat) : pyInt? (natRepr n) = some (n : Int) := by
  have hstrip : stripChars (natRepr n).data = natDigits n := by
    rw [natRepr_eq_natDigits]
    exact stripChars_of_no_space _ (natDigits_noSpace n)
  unfold pyInt?
  rw [hstrip]
  cases hnd : natDigits n with
  | nil => exact absurd hnd (natDigits_ne_nil n)
  | cons d ds =>
    have hd_mem := natDigits_mem_decDigits n d (hnd ▸ List.mem_cons_self d ds)
    have hspec := decDigits_ne_special d hd_mem
    dsimp only
    split
    · rename_i ds1 heq
      exact absurd (List.head_eq_of_cons_eq heq) hspec.2.1
    · rename_i ds1 heq
      exact absurd (List.head_eq_of_cons_eq heq) hspec.2.2.1
    · rw [if_pos ⟨by simp, List.all_eq_true.mpr fun c hc =>
        natDigits_isDigit n c (hnd ▸ hc)⟩]
      rw [← hnd, digitsVal_natDigits]

theorem isoMatch_full (s : String) (hs ms ss : List Char)
    (hdata : s.data = 'P' :: 'T' :: (hs ++ 'H' :: (ms ++ 'M' :: (ss ++ ['S']))))
    (h1 : hs ≠ []) (h2 : ∀ c ∈ hs, c.isDigit = true)
    (h3 : ms ≠ []) (h4 : ∀ c ∈ ms, c.isDigit = true)
    (h5 : ss ≠ []) (h6 : ∀ c ∈ ss, c.isDigit = true) :
    isoMatch s = some (digitsVal hs, digitsVal ms, digitsVal ss) := by
  have hH := numGroup_hit 'H' hs (ms ++ 'M' :: (ss ++ ['S'])) h1 h2 (by decide)
  have hM := numGroup_hit 'M' ms (ss ++ ['S']) h3 h4 (by decide)
  have hS : numGroup 'S' (ss ++ ['S']) = some (digitsVal ss, []) :=
    numGroup_hit 'S' ss [] h5 h6 (by decide)
  unfold isoMatch
  rw [hdata]
  simp [hH, hM, hS]

/-- Bare-integer strings: `iso8601_duration_to_seconds(str(n)) == n`. -/
theorem iso8601_natRepr (n : Nat) :
    iso8601_duration_to_seconds (natRepr n) = .ok (some (n : Int)) := by
  have hstrip : pyStrip (natRepr n) = natRepr n := by
    apply pyStrip_fix
    rw [natRepr_eq_natDigits]
    exact natDigits_noSpace n
  have hupper : pyUpper (natRepr n) = natRepr n := by
    apply pyUpper_fix
    rw [natRepr_eq_natDigits]
    exact natDigits_toUpper n
  have hmatch : isoMatch (natRepr n) = none := by
    apply isoMatch_none_of_head
    intro cs heq
    rw [natRepr_eq_natDigits] at heq
    cases hnd : natDigits n with
    | nil => exact natDigits_ne_nil n hnd
    | cons d ds =>
      rw [hnd] at heq
      exact (decDigits_ne_special d (natDigits_mem_decDigits n d
        (hnd ▸ List.mem_cons_self d ds))).1 (List.head_eq_of_cons_eq heq)
  have hsplit : pySplit ':' (natRepr n) = [natRepr n] := by
    unfold pySplit
    rw [natRepr_eq_natDigits,
      splitOnCharAux_no_sep ':' (natDigits n) []
        (fun c hc => (decDigits_ne_special c (natDigits_mem_decDigits n c hc)).2.2.2)]
    simp [mkString_natDigits]
  unfold iso8601_duration_to_seconds
  rw [hstrip, hupper]
  dsimp only
  rw [hmatch, hsplit]
  have hint : pyIntList [natRepr n] = some [(n : Int)] := by
    unfold pyIntList
    simp [List.mapM.loop, pyInt?_natRepr n]
  rw [hint]

/-- Well-formed `PT{h}H{m}M{s}S` strings yield `h*3600 + m*60 + s`. -/
theorem iso8601_pthms (h m s : Nat) :
    iso8601_duration_to_seconds
      ("PT" ++ natRepr h ++ "H" ++ natRepr m ++ "M" ++ natRepr s ++ "S") =
      .ok (some ((h : Int) * 3600 + m * 60 + s)) := by
  have hdata : ("PT" ++ natRepr h ++ "H" ++ natRepr m ++ "M" ++ natRepr s ++ "S").data =
      'P' :: 'T' :: (natDigits h ++ 'H' :: (natDigits m ++ 'M' :: (natDigits s ++ ['S']))) := by
    simp only [String.data_append, natRepr_eq_natDigits,
      show ("PT" : String).data = ['P', 'T'] from rfl,
      show ("H" : String).data = ['H'] from rfl,
      show ("M" : String).data = ['M'] from rfl,
      show ("S" : String).data = ['S'] from rfl,
      List.append_assoc]
    simp
  have hchars : ∀ c ∈ ("PT" ++ natRepr h ++ "H" ++ natRepr m ++ "M" ++ natRepr s ++
      "S").data, c.toUpper = c ∧ isPySpace c = false := by
    rw [hdata]
    intro c hc
    simp only [List.mem_cons, List.mem_append] at hc
    rcases hc with rfl | rfl | hc
    · exact ⟨by decide, by decide⟩
    · exact ⟨by decide, by decide⟩
    rcases hc with hc | rfl | hc
    · exact ⟨natDigits_toUpper h c hc, natDigits_noSpace h c hc⟩
    · exact ⟨by decide, by decide⟩
    rcases hc with hc | rfl | hc
    · exact ⟨natDigits_toUpper m c hc, natDigits_noSpace m c hc⟩
    · exact ⟨by decide, by decide⟩
    rcases hc with hc | hc
    · exact ⟨natDigits_toUpper s c hc, natDigits_noSpace s c hc⟩
    · rcases hc with rfl | hc
      · exact ⟨by decide, by decide⟩
      · exact absurd hc (List.not_mem_nil c)
  have hstrip := pyStrip_fix _ fun c hc => (hchars c hc).2
  have hupper := pyUpper_fix _ fun c hc => (hchars c hc).1
  have hmatch := isoMatch_full _ (natDigits h) (natDigits m) (natDigits s) hdata
    (natDigits_ne_nil h) (natDigits_isDigit h)
    (natDigits_ne_nil m) (natDigits_isDigit m)
    (natDigits_ne_nil s) (natDigits_isDigit s)
  unfold iso8601_duration_to_seconds
  rw [hstrip, hupper]
  dsimp only
  rw [hmatch, digitsVal_natDigits, digitsVal_natDigits, digitsVal_natDigits]

/-- Well-formed colon times `a:b:c` yield `a*3600 + b*60 + c`. -/
theorem iso8601_colon3 (a b c : Nat) :
    iso8601_duration_to_seconds (natRepr a ++ ":" ++ natRepr b ++ ":" ++ natRepr c) =
      .ok (some ((a : Int) * 3600 + b * 60 + c)) := by
  have hdata : (natRepr a ++ ":" ++ natRepr b ++ ":" ++ natRepr c).data =
      natDigits a ++ ':' :: (natDigits b ++ ':' :: natDigits c) := by
    simp only [String.data_append, natRepr_eq_natDigits,
      show (":" : String).data = [':'] from rfl, List.append_assoc]
    simp
  have hchars : ∀ x ∈ (natRepr a ++ ":" ++ natRepr b ++ ":" ++ natRepr c).data,
      x.toUpper = x ∧ isPySpace x = false := by
    rw [hdata]
    intro x hx
    simp only [List.mem_cons, List.mem_append] at hx
    rcases hx with hx | rfl | hx
    · exact ⟨natDigits_toUpper a x hx, natDigits_noSpace a x hx⟩
    · exact ⟨by decide, by decide⟩
    rcases hx with hx | rfl | hx
    · exact ⟨natDigits_toUpper b x hx, natDigits_noSpace b x hx⟩
    · exact ⟨by decide, by decide⟩
    · exact ⟨natDigits_toUpper c x hx, natDigits_noSpace c x hx⟩
  have hstrip := pyStrip_fix _ fun x hx => (hchars x hx).2
  have hupper := pyUpper_fix _ fun x hx => (hchars x hx).1
  have hmatch : isoMatch (natRepr a ++ ":" ++ natRepr b ++ ":" ++ natRepr c) = none := by
    apply isoMatch_none_of_head
    intro cs heq
    rw [hdata] at heq
    cases hnd : natDigits a with
    | nil => exact natDigits_ne_nil a hnd
    | cons d ds =>
      rw [hnd, List.cons_append] at heq
      exact (decDigits_ne_special d (natDigits_mem_decDigits a d
        (hnd ▸ List.mem_cons_self d ds))).1 (List.head_eq_of_cons_eq heq)
  have hnosepa : ∀ x ∈ natDigits a, x ≠ ':' :=
    fun x hx => (decDigits_ne_special x (natDigits_mem_decDigits a x hx)).2.2.2
  have hnosepb : ∀ x ∈ natDigits b, x ≠ ':' :=
    fun x hx => (decDigits_ne_special x (natDigits_mem_decDigits b x hx)).2.2.2
  have hnosepc : ∀ x ∈ natDigits c, x ≠ ':' :=
    fun x hx => (decDigits_ne_special x (natDigits_mem_decDigits c x hx)).2.2.2
  have hsplit : pySplit ':' (natRepr a ++ ":" ++ natRepr b ++ ":" ++ natRepr c) =
      [natRepr a, natRepr b, natRepr c] := by
    unfold pySplit
    rw [show (natRepr a ++ ":" ++ natRepr b ++ ":" ++ natRepr c).data =
        natDigits a ++ ':' :: (natDigits b ++ ':' :: natDigits c) from hdata,
      splitOnCharAux_hit ':' (natDigits a) _ [] hnosepa,
      splitOnCharAux_hit ':' (natDigits b) _ [] hnosepb,
      splitOnCharAux_no_sep ':' (natDigits c) [] hnosepc]
    simp [mkString_natDigits]
  unfold iso8601_duration_to_seconds
  rw [hstrip, hupper]
  dsimp only
  rw [hmatch, hsplit]
  have hint : pyIntList [natRepr a, natRepr b, natRepr c] =
      some [(a : Int), (b : Int), (c : Int)] := by
    unfold pyIntList
    simp [List.mapM.loop, pyInt?_natRepr]
  rw [hint]

/-- **C5** (confirmed): the concrete spec examples evaluate as stated, and
for every rendered triple of integers the ISO form gives
`h*3600 + m*60 + s`, the three-part colon form gives `a*3600 + b*60 + c`,
and a bare integer string gives the integer itself. -/
theorem C5_duration_values :
    iso8601_duration_to_seconds "PT1H2M3S" = .ok (some 3723) ∧
    iso8601_duration_to_seconds "1:02:03" = .ok (some 3723) ∧
    iso8601_duration_to_seconds "02:03" = .ok (some 123) ∧
    (∀ n : Nat, iso8601_duration_to_seconds (natRepr n) = .ok (some (n : Int))) ∧
    (∀ h m s : Nat,
      iso8601_duration_to_seconds
        ("PT" ++ natRepr h ++ "H" ++ natRepr m ++ "M" ++ natRepr s ++ "S") =
        .ok (some ((h : Int) * 3600 + m * 60 + s))) ∧
    (∀ a b c : Nat,
      iso8601_duration_to_seconds (natRepr a ++ ":" ++ natRepr b ++ ":" ++ natRepr c) =
        .ok (some ((a : Int) * 3600 + b * 60 + c))) :=
  ⟨by decide, by decide, by decide, iso8601_natRepr, iso8601_pthms, iso8601_colon3⟩

/-! ## Claim C1: dataframe plumbing and the synthetic ids -/

/-- In `f"{prefix}_{i}"` the maximal digit run at the end of the string is
exactly `str(i)` — the `"_"` separator is not a digit — so equal
synthesized ids force equal row indices, for arbitrary (even differing)
prefixes. -/
theorem synthId_index_injective (s1 s2 : String) (i j : Nat)
    (h : s1 ++ "_" ++ natRepr i = s2 ++ "_" ++ natRepr j) : i = j := by
  have hdata := congrArg String.data h
  rw [String.data_append, String.data_append, String.data_append, String.data_append,
    natRepr_eq_natDigits, natRepr_eq_natDigits,
    show ("_" : String).data = ['_'] from rfl] at hdata
  have h1 : (natDigits i).reverse ++ '_' :: s1.data.reverse =
      (natDigits j).reverse ++ '_' :: s2.data.reverse := by
    have hrev := congrArg List.reverse hdata
    simpa [List.reverse_append] using hrev
  have htake := congrArg (List.takeWhile Char.isDigit) h1
  rw [takeWhile_append_stop _ _ '_' _
      (fun c hc => natDigits_isDigit i c (List.mem_reverse.mp hc)) (by decide),
    takeWhile_append_stop _ _ '_' _
      (fun c hc => natDigits_isDigit j c (List.mem_reverse.mp hc)) (by decide)] at htake
  have hd : natDigits i = natDigits j := by
    have hrr := congrArg List.reverse htake
    simpa using hrr
  calc i = digitsVal (natDigits i) := (digitsVal_natDigits i).symm
    _ = digitsVal (natDigits j) := by rw [hd]
    _ = j := digitsVal_natDigits j

theorem aliasTable_avoids_source_tag :
    ∀ p ∈ aliasTable, (∀ v ∈ p.1, pyLower v ≠ "_source_file") ∧ p.2 ≠ "_source_file" := by
  decide

theorem buildMapping_ne_source_tag (df : DataFrame) :
    ∀ q ∈ buildMapping df, q.1 ≠ "_source_file" ∧ q.2 ≠ "_source_file" := by
  intro q hq
  unfold buildMapping at hq
  rcases List.mem_filterMap.mp hq with ⟨p, hp, hpq⟩
  rcases Option.map_eq_some'.mp hpq with ⟨c, hc, hcq⟩
  subst hcq
  refine ⟨?_, (aliasTable_avoids_source_tag p hp).2⟩
  intro hcn
  unfold find_column at hc
  rcases List.exists_of_findSome?_eq_some hc with ⟨v, hv, hlook⟩
  unfold colsLowLookup at hlook
  have hpred := List.find?_some hlook
  simp only [decide_eq_true_eq] at hpred
  have hcn' : c = "_source_file" := hcn
  rw [hcn'] at hpred
  have hls : pyLower "_source_file" = "_source_file" := by decide
  exact (aliasTable_avoids_source_tag p hp).1 v hv (hpred.symm.trans hls)

/-- The `_source_file` tag column survives the unifier untouched up to the
point where `source_file` is created from it. -/
theorem sourceTag_before (df : DataFrame) :
    (datetimeCol (coerceNumericCols (addMissingRequired
      (renameCols (buildMapping (stripColNames df)) (stripColNames df))))).getCol?
        "_source_file" = (stripColNames df).getCol? "_source_file" := by
  rw [getCol?_datetimeCol _ _ (by decide),
    getCol?_coerceNumericCols _ _ (by decide),
    getCol?_addMissingRequired _ _ (by decide),
    getCol?_renameCols _ _ _ (fun p hp => (buildMapping_ne_source_tag _ p hp).1)
      (fun p hp => (buildMapping_ne_source_tag _ p hp).2)]

/-- **C1** (corrected): the claim's unconditional non-nullness fails
(`C1_counterexample`); what holds is: (a) when the mapped `student_id`
column is entirely null after the pre-id steps, every output id is the
synthetic `"{source_file}_{row_index}"` string — hence non-null — and these
ids are pairwise distinct within the batch, whatever the per-row
`source_file` values (the digit run after the final underscore is exactly
`str(row_index)`, so equal ids force equal indices);
(b) otherwise the `student_id` column passes through unchanged, null cells
included; (c) the output `source_file` column is exactly the batch's
`_source_file` tag column when one exists, so it is non-null iff the tag
values are. -/
theorem C1_unify_identity_columns (df : DataFrame) :
    (((unifyBeforeId df).getColD "student_id").all (· = PyVal.null) = true →
      ((unify_columns df).getColD "student_id" =
        (List.range (unifyBeforeId df).nrows).map (fun i =>
          PyVal.str (fstr (((unifyBeforeId df).getColD "source_file").getD i PyVal.null)
            ++ "_" ++ natRepr i)) ∧
       (∀ v ∈ (unify_columns df).getColD "student_id", v ≠ PyVal.null) ∧
       ((unify_columns df).getColD "student_id").Nodup)) ∧
    (((unifyBeforeId df).getColD "student_id").all (· = PyVal.null) = false →
      (unify_columns df).getColD "student_id" =
        (unifyBeforeId df).getColD "student_id") ∧
    (∀ sf : List PyVal, (stripColNames df).getCol? "_source_file" = some sf →
      (unify_columns df).getColD "source_file" = sf ∧
      ((∀ v ∈ sf, v ≠ PyVal.null) →
        ∀ v ∈ (unify_columns df).getColD "source_file", v ≠ PyVal.null)) := by
  constructor
  · -- (a) all-null case
    intro hcond
    have hu : unify_columns df = reorderKeep (synthStudentIds (unifyBeforeId df)) := by
      unfold unify_columns
      simp only
      rw [if_pos hcond]
    have hid : (unify_columns df).getColD "student_id" =
        (List.range (unifyBeforeId df).nrows).map (fun i =>
          PyVal.str (fstr (((unifyBeforeId df).getColD "source_file").getD i PyVal.null)
            ++ "_" ++ natRepr i)) := by
      rw [hu]
      exact getColD_eq _ _ _
        ((getCol?_reorderKeep _ "student_id" (by decide)).trans
          (getCol?_synthStudentIds_self (unifyBeforeId df)))
    refine ⟨hid, ?_, ?_⟩
    · intro v hv
      rw [hid] at hv
      rcases List.mem_map.mp hv with ⟨i, _, hvi⟩
      rw [← hvi]
      intro hcon
      cases hcon
    · rw [hid]
      refine List.Nodup.map ?_ (List.nodup_range _)
      intro a b hab
      simp only at hab
      exact synthId_index_injective _ _ a b (PyVal.str.inj hab)
  constructor
  · -- (b) not-all-null case
    intro hcond
    have hu : unify_columns df = reorderKeep (unifyBeforeId df) := by
      unfold unify_columns
      simp only
      rw [if_neg (by rw [hcond]; exact Bool.false_ne_true)]
    rw [hu]
    unfold DataFrame.getColD
    rw [getCol?_reorderKeep _ "student_id" (by decide)]
  · -- (c) source_file passthrough
    intro sf hsf
    have hmid : (unifyBeforeId df).getCol? "source_file" = some sf := by
      unfold unifyBeforeId
      simp only
      apply getCol?_sourceFileCol_tag
      rw [sourceTag_before df]
      exact hsf
    have hout : (unify_columns df).getColD "source_file" = sf := by
      unfold unify_columns
      simp only
      by_cases hcond : ((unifyBeforeId df).getColD "student_id").all (· = PyVal.null) = true
      · rw [if_pos hcond]
        exact getColD_eq _ _ _
          ((getCol?_reorderKeep _ "source_file" (by decide)).trans
            ((getCol?_synthStudentIds_other _ "source_file" (by decide)).trans hmid))
      · rw [if_neg hcond]
        exact getColD_eq _ _ _
          ((getCol?_reorderKeep _ "source_file" (by decide)).trans hmid)
    refine ⟨hout, ?_⟩
    intro hnn v hv
    rw [hout] at hv
    exact hnn v hv

/-- Witness for C1 on a batch with no id column: the synthesized ids are
pairwise distinct. -/
theorem C1_unify_identity_witness :
    ((unify_columns uBatchNoId).getColD "student_id").Nodup :=
  ((C1_unify_identity_columns uBatchNoId).1 (by decide)).2.2

/-- Counterexample to C1 as stated: a batch whose mapped `student_id`
column is partially null keeps the null (no synthesis is triggered), and a
batch without `_source_file`/`source` columns gets an all-null
`source_file`. -/
theorem C1_counterexample :
    PyVal.null ∈ (unify_columns uBatchPartialId).getColD "student_id" ∧
    (unify_columns uBatchBare).getColD "source_file" = [PyVal.null] := by
  constructor
  · decide
  · decide

end StudentPipeline
